import Mathlib

/-!
# Verification of the EnhancedTick per-frame scheduler

Shallow embedding, in Lean 4, of the core of the EnhancedTick repository
(Source/EnhancedTick/Private/EnhancedTickSystem.cpp and its header), together
with proofs about the embedded operations.

Modelling conventions:
- machine floats (FVector, durations, FApp::GetCurrentTime()) are modelled over
  the rationals; distance comparisons use squared distances, which order the
  same way as the nonnegative square roots compared by the source;
- a UObject pointer is modelled by a numeric id together with its validity
  state (null pointer / non-null but IsValid false / live);
- a bound TFunction is modelled by a presence bit;
- membership of an object's class in the fixed thread-unsafe denylist
  (UPrimitiveComponent, USceneComponent, UCharacterMovementComponent) is
  modelled by a boolean on the object reference;
- wall-clock readings (FPlatformTime elapsed, FApp::GetCurrentTime()) are
  environment inputs and enter the embedding as explicit parameters.
-/

namespace EnhancedTick

attribute [local semireducible] Rat.mul Rat.add Rat.sub Rat.inv

/-- Validity state of a non-owning UObject reference: a null pointer, a
non-null pointer to a no-longer-valid object (IsValid false), or a live
object (IsValid true). -/

inductive ObjState
  | null
  | stale
  | live
deriving DecidableEq

/-- World position (FVector), modelled over the rationals. -/
structure V3 where
  x : ℚ
  y : ℚ
  z : ℚ
deriving DecidableEq

/-- Squared Euclidean distance between two positions. The source compares
FVector::Distance values (nonnegative square roots), which order identically
to their squares, so all distance comparisons are embedded via distSq. -/
def distSq (a b : V3) : ℚ :=
  (a.x - b.x) * (a.x - b.x) + (a.y - b.y) * (a.y - b.y) + (a.z - b.z) * (a.z - b.z)

/-- The ETickBatchFlags bit set, one boolean per flag. -/
structure Flags where
  useParallel : Bool
  cacheHot : Bool
  conditional : Bool
  highPrio : Bool
  lowPrio : Bool
  spatialAware : Bool
  stateDependent : Bool
deriving DecidableEq

/-- ETickBatchFlags::None. -/
def noFlags : Flags :=
  { useParallel := false, cacheHot := false, conditional := false,
    highPrio := false, lowPrio := false, spatialAware := false,
    stateDependent := false }

/-- FTickEntityData: the per-entity record stored in a type batch. -/
structure FTickEntityData where
  objectId : Nat
  objectState : ObjState
  hasTickFunction : Bool
  position : V3
  spatialBucketId : Nat
  priority : Nat
  bEnabled : Bool
  denylisted : Bool
deriving DecidableEq

/-- The activity filter applied to descriptors before dispatch:
Entity.bEnabled && IsValid(Entity.Object). -/
def entityActive (e : FTickEntityData) : Bool :=
  e.bEnabled && (e.objectState == ObjState.live)

/-- FComponentTypeBatch: a classification-grouped batch of descriptors.
The bound dispatch TFunction is modelled by a presence bit; the tick group
is the index of the ETickingGroup in the fixed 7-phase order (TG_PrePhysics
is 0, TG_PostPhysics is 4). -/
structure FComponentTypeBatch where
  typeName : String
  flags : Flags
  tickEntities : List FTickEntityData
  hasBatchTickFunction : Bool
  tickGroup : Nat
  averageTickTimeNs : ℚ
  lastFrameTickCount : Nat
  bSortByCacheLocality : Bool
deriving DecidableEq

/-- FComponentTypeBatch::CanTickInParallel: tests the UseParallel flag. -/
def FComponentTypeBatch.canTickInParallel (b : FComponentTypeBatch) : Bool :=
  b.flags.useParallel

/-!
## SortForCacheLocality

The greedy nearest-neighbour chaining of FComponentTypeBatch::SortForCacheLocality.
pickNearest models one round of the inner best-index scan: given the last chained
entity, a current best candidate and the remaining candidates, it returns the
selected entity (the first one attaining the minimal distance, since the scan
replaces the best only on a strictly smaller distance) together with the
not-selected candidates in their original order.
-/
def pickNearest (last cur : FTickEntityData) :
    List FTickEntityData → FTickEntityData × List FTickEntityData
  | [] => (cur, [])
  | x :: xs =>
      if distSq last.position x.position < distSq last.position cur.position then
        ((pickNearest last x xs).1, cur :: (pickNearest last x xs).2)
      else
        ((pickNearest last cur xs).1, x :: (pickNearest last cur xs).2)

/-- The while-loop of SortForCacheLocality, structured over a fuel argument
that counts the remaining iterations (one entity is selected per round, so
the list length is the exact fuel). -/
def chainFromAux : Nat → FTickEntityData → List FTickEntityData →
    List FTickEntityData
  | 0, _, _ => []
  | _ + 1, _, [] => []
  | fuel + 1, last, x :: xs =>
      (pickNearest last x xs).1 ::
        chainFromAux fuel (pickNearest last x xs).1 (pickNearest last x xs).2

/-- The while-loop of SortForCacheLocality: repeatedly select the nearest
remaining entity to the last selected one, until all are chained. -/
def chainFrom (last : FTickEntityData) (l : List FTickEntityData) :
    List FTickEntityData :=
  chainFromAux l.length last l

/-- The chained-order invariant produced by the greedy selection: each element
is at minimal distance from its predecessor among itself and everything after it. -/
def IsChained : FTickEntityData → List FTickEntityData → Prop
  | _, [] => True
  | last, b :: r =>
      (∀ y ∈ b :: r, distSq last.position b.position ≤ distSq last.position y.position) ∧
      IsChained b r

/-- FComponentTypeBatch::SortForCacheLocality: no-op for fewer than two
entities or fewer than two enabled-and-valid entities; otherwise replaces the
entity sequence with the greedy nearest-neighbour chain over the
enabled-and-valid entities (the disabled or invalid ones are filtered out and
are not copied back). -/
def sortForCacheLocality (b : FComponentTypeBatch) : FComponentTypeBatch :=
  if b.tickEntities.length < 2 then b
  else if (b.tickEntities.filter entityActive).length < 2 then b
  else
    match b.tickEntities.filter entityActive with
    | [] => b
    | v0 :: vrest => { b with tickEntities := v0 :: chainFrom v0 vrest }

/-!
## TickBatch and TickBatchParallel

FComponentTypeBatch::TickBatch and FComponentTypeBatch::TickBatchParallel.
The parameters model the environment: now is the value read from
FApp::GetCurrentTime() in seconds, elapsedNs the measured wall-clock duration
of the dispatch in nanoseconds, numThreads the value of
FPlatformMisc::NumberOfWorkerThreadsToSpawn(). Each function returns the
updated batch together with the ids of the entities whose update is invoked:
in the sequential path these are the entities of the active view handed to
the batch dispatch callable, in the parallel path the entities of the shards
whose bound per-entity TickFunction is present.
-/
/-- The active view built before dispatch: entities that are enabled and
whose object passes IsValid. -/
def filterActive (l : List FTickEntityData) : List FTickEntityData :=
  l.filter entityActive

/-- The batch after the entry steps shared by TickBatch and
TickBatchParallel: the last-frame count is zeroed and, when
bSortByCacheLocality is set, SortForCacheLocality has run. -/
def preTick (b : FComponentTypeBatch) : FComponentTypeBatch :=
  if b.bSortByCacheLocality then
    sortForCacheLocality { b with lastFrameTickCount := 0 }
  else { b with lastFrameTickCount := 0 }

/-- FComponentTypeBatch::TickBatch (sequential path). -/
def tickBatch (now elapsedNs : ℚ) (b : FComponentTypeBatch) :
    FComponentTypeBatch × List Nat :=
  if b.tickEntities.isEmpty || !b.hasBatchTickFunction then
    ({ b with lastFrameTickCount := 0 }, [])
  else
    let b1 := preTick b
    if b1.flags.lowPrio && decide (now < 30) then (b1, [])
    else
      let active := filterActive b1.tickEntities
      if active.isEmpty then (b1, [])
      else
        ({ b1 with averageTickTimeNs := elapsedNs / (active.length : ℚ),
                   lastFrameTickCount := active.length },
         active.map (fun e => e.objectId))

/-- EntitiesPerThread: FMath::Max(1, FMath::CeilToInt(active / numThreads)). -/
def entitiesPerThread (n numThreads : Nat) : Nat :=
  max 1 ((n + numThreads - 1) / numThreads)

/-- One thread of the shard fan-out of TickBatchParallel: thread t handles
the contiguous index range from t*per up to min(t*per + per, n), skipping an
empty range; inside the shard every entity with a bound per-entity
TickFunction is invoked in order, appending the invoked ids to acc. -/
def shardStep (active : List FTickEntityData) (per : Nat) (acc : List Nat)
    (t : Nat) : List Nat :=
  if min (t * per + per) active.length ≤ t * per then acc
  else acc ++ (((active.drop (t * per)).take
      (min (t * per + per) active.length - t * per)).filter
        (fun e => e.hasTickFunction)).map (fun e => e.objectId)

/-- The shard fan-out of TickBatchParallel over all worker threads; the
barrier at the end makes the invocation list the concatenation of the shard
invocation lists in thread-index order. -/
def shardInvocations (active : List FTickEntityData) (numThreads per : Nat) : List Nat :=
  (List.range numThreads).foldl (shardStep active per) []

/-- FComponentTypeBatch::TickBatchParallel. -/
def tickBatchParallel (now elapsedNs : ℚ) (numThreads : Nat)
    (b : FComponentTypeBatch) : FComponentTypeBatch × List Nat :=
  if b.tickEntities.isEmpty || !b.hasBatchTickFunction || !b.canTickInParallel then
    tickBatch now elapsedNs { b with lastFrameTickCount := 0 }
  else
    let b1 := preTick b
    let active := filterActive b1.tickEntities
    if active.isEmpty then (b1, [])
    else if active.any (fun e => e.denylisted) then
      tickBatch now elapsedNs b1
    else
      let per := entitiesPerThread active.length numThreads
      ({ b1 with lastFrameTickCount := active.length,
                 averageTickTimeNs := elapsedNs / (active.length : ℚ) },
       shardInvocations active numThreads per)

/-!
## Spatial grid (FSpatialEntityBatch)
-/
/-- Floor of a rational, computed with floor division of the numerator by
the (positive) denominator; this is the mathematical floor used by
FMath::FloorToInt. -/
def ratFloor (q : ℚ) : ℤ := Int.fdiv q.num q.den

/-- Ceiling of a rational, used by FMath::CeilToInt. -/
def ratCeil (q : ℚ) : ℤ := -(ratFloor (-q))

/-- FSpatialEntityBatch::CalculateGridCell: floor-quantize each axis by the
cell size, then pack the low 6 bits of X, 6 bits of Y and 4 bits of Z into a
16-bit key (X in bits 10..15, Y in bits 4..9, Z in bits 0..3). The C++ mask
CellX & 0x3F on a two's-complement int32 equals CellX mod 64. -/
def calculateGridCell (cellSize : ℚ) (p : V3) : Nat :=
  let cx : ℤ := ratFloor (p.x / cellSize)
  let cy : ℤ := ratFloor (p.y / cellSize)
  let cz : ℤ := ratFloor (p.z / cellSize)
  (((cx % 64).toNat <<< 10) ||| ((cy % 64).toNat <<< 4)) ||| (cz % 16).toNat

/-- Whether FVector::Distance(p, q) <= r: comparing the nonnegative square
root with r is equivalent to 0 <= r together with the squared comparison. -/
def withinRadius (p q : V3) (r : ℚ) : Bool :=
  decide (0 ≤ r) && decide (distSq p q ≤ r * r)

/-- FSpatialEntityBatch: cell size, the cell-keyed buckets, and the flat
membership list (by object id). The buckets store descriptor values in place
of the descriptor pointers of the source; descriptor identity is the object
id. -/
structure FSpatialEntityBatch where
  gridCellSize : ℚ
  gridCells : List (Nat × List FTickEntityData)
  allSpatialEntities : List Nat
deriving DecidableEq

/-- TMap::Find on the cell map. -/
def findCell (g : FSpatialEntityBatch) (gid : Nat) :
    Option (List FTickEntityData) :=
  (g.gridCells.find? (fun c => c.1 == gid)).map (fun c => c.2)

/-- GridCells.FindOrAdd(GridCell).Add(Entity). -/
def insertIntoCell (cells : List (Nat × List FTickEntityData)) (gid : Nat)
    (d : FTickEntityData) : List (Nat × List FTickEntityData) :=
  match cells with
  | [] => [(gid, [d])]
  | c :: rest =>
      if c.1 == gid then (c.1, c.2 ++ [d]) :: rest
      else c :: insertIntoCell rest gid d

/-- FSpatialEntityBatch::AddEntity: null pointers are rejected; the cell of
the cached position is computed, recorded in the descriptor and the
descriptor is added to that cell's bucket and to the flat membership list.
The lock only guards the mutation. -/
def addEntity (g : FSpatialEntityBatch) (d : FTickEntityData) :
    FSpatialEntityBatch :=
  if d.objectState == ObjState.null then g
  else
    let cell := calculateGridCell g.gridCellSize d.position
    { g with
        gridCells := insertIntoCell g.gridCells cell
          { d with spatialBucketId := cell },
        allSpatialEntities := g.allSpatialEntities ++ [d.objectId] }

/-- The bucket update of FSpatialEntityBatch::RemoveEntity: in the cell
recorded in the descriptor, remove every entry referencing the object
(TArray::Remove removes all equal items); drop the cell when it empties. -/
def removeFromCell (cells : List (Nat × List FTickEntityData)) (gid : Nat)
    (oid : Nat) : List (Nat × List FTickEntityData) :=
  match cells with
  | [] => []
  | c :: rest =>
      if c.1 == gid then
        if (c.2.filter (fun e => e.objectId != oid)).isEmpty then rest
        else (c.1, c.2.filter (fun e => e.objectId != oid)) :: rest
      else c :: removeFromCell rest gid oid

/-- FSpatialEntityBatch::RemoveEntity. -/
def removeEntity (g : FSpatialEntityBatch) (d : FTickEntityData) :
    FSpatialEntityBatch :=
  if d.objectState == ObjState.null then g
  else
    { g with
        gridCells := removeFromCell g.gridCells d.spatialBucketId d.objectId,
        allSpatialEntities :=
          g.allSpatialEntities.filter (fun i => i != d.objectId) }

/-- The dx/dy/dz loop range of GetNearbyEntities: -R..R, empty when R < 0. -/
def neighborOffsetList (R : ℤ) : List ℤ :=
  if R < 0 then [] else (List.range (2 * R.toNat + 1)).map (fun i => (i : ℤ) - R)

/-- The candidate cells scanned by GetNearbyEntities: the center cell first,
then every in-bounds neighbor of the decoded center within the cube radius
CeilToInt(radius / cellSize), re-packed, skipping the center itself. -/
def scannedCells (cellSize : ℚ) (p : V3) (r : ℚ) : List Nat :=
  let center := calculateGridCell cellSize p
  let gridRadius : ℤ := ratCeil (r / cellSize)
  let cX : ℤ := ((center >>> 10) % 64 : Nat)
  let cY : ℤ := ((center >>> 4) % 64 : Nat)
  let cZ : ℤ := (center % 16 : Nat)
  center :: ((neighborOffsetList gridRadius).flatMap (fun dx =>
    (neighborOffsetList gridRadius).flatMap (fun dy =>
      (neighborOffsetList gridRadius).filterMap (fun dz =>
        let nx := cX + dx
        let ny := cY + dy
        let nz := cZ + dz
        if nx < 0 ∨ 63 < nx ∨ ny < 0 ∨ 63 < ny ∨ nz < 0 ∨ 15 < nz then none
        else
          let nid := (((nx.toNat % 64) <<< 10) ||| ((ny.toNat % 64) <<< 4)) |||
            (nz.toNat % 16)
          if nid == center then none else some nid))))

/-- The contribution of one scanned cell to GetNearbyEntities: the bucket
members that are enabled, have a non-null object, and lie within the true
Euclidean radius; a cell missing from the map contributes nothing. -/
def cellHits (g : FSpatialEntityBatch) (p : V3) (r : ℚ) (gid : Nat) :
    List FTickEntityData :=
  match findCell g gid with
  | none => []
  | some es => es.filter (fun e =>
      e.bEnabled && !(e.objectState == ObjState.null) &&
        withinRadius p e.position r)

/-- FSpatialEntityBatch::GetNearbyEntities: gather, over every scanned
candidate cell, the bucket members that pass the enabled/non-null checks and
the true-Euclidean-distance filter. -/
def getNearbyEntities (g : FSpatialEntityBatch) (p : V3) (r : ℚ) :
    List FTickEntityData :=
  (scannedCells g.gridCellSize p r).foldl
    (fun acc gid => acc ++ cellHits g p r gid) []

/-!
## Orchestrator: frame counter and the low-priority throttle
-/
/-- The frame counter update at the top of UEnhancedTickSystem::Tick:
FrameCounter = (FrameCounter + 1) % 1000. -/
def nextFrameCounter (fc : Nat) : Nat := (fc + 1) % 1000

/-- The frame counter value in effect while the n-th frame (0-indexed) of a
fresh system is processed: the constructor initializes FrameCounter to 0 and
every Tick call increments it before any batch is processed. -/
def frameCounterOnFrame : Nat → Nat
  | 0 => nextFrameCounter 0
  | n + 1 => nextFrameCounter (frameCounterOnFrame n)

/-- The throttle decision of UEnhancedTickSystem::TickGroupBatches for one
batch: a low-priority batch is skipped unless FrameCounter % 3 == 0; every
other batch is ticked. -/
def orchestratorTicksBatch (fc : Nat) (b : FComponentTypeBatch) : Bool :=
  !b.flags.lowPrio || (fc % 3 == 0)

/-- The 0-indexed frames of an n-frame run from a fresh system on which the
orchestrator ticks the given batch. -/
def tickedFrames (b : FComponentTypeBatch) (n : Nat) : List Nat :=
  (List.range n).filter (fun i => orchestratorTicksBatch (frameCounterOnFrame i) b)

/-!
## Optimizer: AnalyzeCurrentState
-/
/-- The per-batch body of UEnhancedTickSystem::AnalyzeCurrentState (the
Stats counters it bumps are display-only and are not part of the batch
state). -/
def analyzeBatch (b : FComponentTypeBatch) : FComponentTypeBatch :=
  let b1 := if b.averageTickTimeNs > 1000 ∧ b.tickEntities.length > 10 then
      { b with flags := { b.flags with useParallel := true } }
    else b
  let b2 := if b1.tickEntities.length < 5 then
      { b1 with bSortByCacheLocality := false }
    else b1
  if b2.averageTickTimeNs < 100 ∧ b2.flags.highPrio = false then
    { b2 with flags := { b2.flags with lowPrio := true } }
  else b2

/-- One Optimizer analysis pass over every type batch. -/
def analyzeCurrentState (batches : List FComponentTypeBatch) :
    List FComponentTypeBatch :=
  batches.map analyzeBatch

/-!
## SortBatchesByPriority
-/
/-- The strict comparator passed to Sort in
UEnhancedTickSystem::SortBatchesByPriority: when the HighPrio flags differ,
the flagged batch comes first; otherwise when the LowPrio flags differ, the
unflagged batch comes first; otherwise the batch with more entities
(TickEntities.Num()) comes first. -/
def batchBefore (a b : FComponentTypeBatch) : Bool :=
  if a.flags.highPrio ≠ b.flags.highPrio then a.flags.highPrio && !b.flags.highPrio
  else if a.flags.lowPrio ≠ b.flags.lowPrio then !a.flags.lowPrio && b.flags.lowPrio
  else decide (b.tickEntities.length < a.tickEntities.length)

/-- Insertion of a batch in front of the first element it must precede. The
engine TArray::Sort is a comparator sort whose algorithm is engine code
outside this repository; the embedding realizes the same comparator contract
with an insertion sort. -/
def insertBatch (a : FComponentTypeBatch) :
    List FComponentTypeBatch → List FComponentTypeBatch
  | [] => [a]
  | x :: xs => if batchBefore a x then a :: x :: xs else x :: insertBatch a xs

/-- UEnhancedTickSystem::SortBatchesByPriority, for one phase's batch list. -/
def sortBatchesByPriority : List FComponentTypeBatch → List FComponentTypeBatch
  | [] => []
  | x :: xs => insertBatch x (sortBatchesByPriority xs)

/-!
## Deferred registration and the per-frame flush
-/
/-- The view of an external UObject consumed by registration and the flush:
identity, IsValid, class name and class identity, the tick group of its
primary tick, its active state, its world position, and membership of its
class in the thread-unsafe denylist. The embedding covers the registration
structure shared by the component and the actor paths of the source. -/
structure ExternalObject where
  oid : Nat
  valid : Bool
  className : String
  classKey : Nat
  tickGroup : Nat
  isActive : Bool
  position : V3
  denylisted : Bool
deriving DecidableEq

/-- The default-constructed FComponentTypeBatch produced by TMap::FindOrAdd
for a new key: empty name, no flags, no entities, empty dispatch TFunction,
TG_PrePhysics, zero statistics, cache sorting enabled. -/
def defaultBatch : FComponentTypeBatch :=
  { typeName := "", flags := noFlags, tickEntities := [],
    hasBatchTickFunction := false, tickGroup := 0, averageTickTimeNs := 0,
    lastFrameTickCount := 0, bSortByCacheLocality := true }

/-- The subsystem state touched by the deferred-operation flush. -/
structure SysState where
  typeBatches : List (Nat × FComponentTypeBatch)
  spatial : FSpatialEntityBatch
  pendingRegistrations : List (ExternalObject × Flags)
  pendingUnregistrations : List ExternalObject
deriving DecidableEq

/-- UEnhancedTickSystem::RegisterComponent: invalid components are rejected;
for denylisted classes the UseParallel flag is stripped; the request is
appended to the pending queue without deduplication. -/
def registerComponent (st : SysState) (obj : ExternalObject) (flags : Flags) :
    SysState :=
  if obj.valid = false then st
  else
    { st with pendingRegistrations := st.pendingRegistrations ++
        [(obj, if obj.denylisted && flags.useParallel then
            { flags with useParallel := false }
          else flags)] }

/-- UEnhancedTickSystem::UnregisterComponent: invalid components are
rejected; the reference is appended to the pending unregistration queue. -/
def unregisterComponent (st : SysState) (obj : ExternalObject) : SysState :=
  if obj.valid = false then st
  else
    { st with pendingUnregistrations := st.pendingUnregistrations ++ [obj] }

/-- The descriptor built by the flush for a pending registration: position
snapshot, computed spatial bucket, priority (200 for TG_PostPhysics, 100
otherwise), enablement from the active state, and a bound per-entity tick
callable. -/
def mkDescriptor (cellSize : ℚ) (obj : ExternalObject) : FTickEntityData :=
  { objectId := obj.oid, objectState := ObjState.live, hasTickFunction := true,
    position := obj.position,
    spatialBucketId := calculateGridCell cellSize obj.position,
    priority := if obj.tickGroup == 4 then 200 else 100,
    bEnabled := obj.isActive, denylisted := obj.denylisted }

/-- TMap::Find on the class-keyed batch map. -/
def lookupBatch (l : List (Nat × FComponentTypeBatch)) (k : Nat) :
    Option FComponentTypeBatch :=
  (l.find? (fun c => c.1 == k)).map (fun c => c.2)

/-- Writing through the reference obtained from TMap::FindOrAdd: replace the
entry when the key exists, or append a new entry. -/
def setBatch (l : List (Nat × FComponentTypeBatch)) (k : Nat)
    (b : FComponentTypeBatch) : List (Nat × FComponentTypeBatch) :=
  match l with
  | [] => [(k, b)]
  | c :: rest => if c.1 == k then (k, b) :: rest else c :: setBatch rest k b

/-- The batch a pending registration writes into, just before the descriptor
append: the class-keyed batch found by TMap::FindOrAdd, initialized with
name, tick group, flags and a bound dispatch callable when it was just
created (its TypeName still empty). -/
def regBaseBatch (st : SysState) (obj : ExternalObject) (fl : Flags) :
    FComponentTypeBatch :=
  if ((lookupBatch st.typeBatches obj.classKey).getD defaultBatch).typeName == ""
  then
    { (lookupBatch st.typeBatches obj.classKey).getD defaultBatch with
      typeName := obj.className, tickGroup := obj.tickGroup, flags := fl,
      hasBatchTickFunction := true }
  else (lookupBatch st.typeBatches obj.classKey).getD defaultBatch

/-- One pending registration of the flush
(UEnhancedTickSystem::ProcessDeferredOperationsImpl, registration loop):
skip now-invalid objects; find or create the class-keyed batch; on first
creation (empty TypeName) set name, tick group, flags and the dispatch
callable; append the new descriptor; when the registration flags request
spatial awareness also insert the descriptor into the spatial grid. -/
def processRegistration (st : SysState) (p : ExternalObject × Flags) :
    SysState :=
  if p.1.valid = false then st
  else
    { st with
        typeBatches := setBatch st.typeBatches p.1.classKey
          { regBaseBatch st p.1 p.2 with
            tickEntities := (regBaseBatch st p.1 p.2).tickEntities ++
              [mkDescriptor st.spatial.gridCellSize p.1] },
        spatial := if p.2.spatialAware then
            addEntity st.spatial (mkDescriptor st.spatial.gridCellSize p.1)
          else st.spatial }

/-- The per-batch scan of one pending unregistration: find the first
descriptor referencing the object; on the match remove it from the spatial
grid first, then from the batch sequence, and stop scanning this batch. -/
def removeFirstFrom (sp : FSpatialEntityBatch) (l : List FTickEntityData)
    (oid : Nat) : FSpatialEntityBatch × List FTickEntityData :=
  match l with
  | [] => (sp, [])
  | e :: es =>
      if e.objectId == oid then (removeEntity sp e, es)
      else
        ((removeFirstFrom sp es oid).1, e :: (removeFirstFrom sp es oid).2)

/-- The per-batch step of the unregistration scan, threading the spatial
grid and accumulating the updated batches in order. -/
def unregStep (oid : Nat)
    (acc : FSpatialEntityBatch × List (Nat × FComponentTypeBatch))
    (kb : Nat × FComponentTypeBatch) :
    FSpatialEntityBatch × List (Nat × FComponentTypeBatch) :=
  ((removeFirstFrom acc.1 kb.2.tickEntities oid).1,
   acc.2 ++ [(kb.1, { kb.2 with
     tickEntities := (removeFirstFrom acc.1 kb.2.tickEntities oid).2 })])

/-- One pending unregistration of the flush: skip now-invalid objects, else
scan every type batch. -/
def processUnregistration (st : SysState) (obj : ExternalObject) : SysState :=
  if obj.valid = false then st
  else
    { st with
        spatial := (st.typeBatches.foldl (unregStep obj.oid)
          (st.spatial, [])).1,
        typeBatches := (st.typeBatches.foldl (unregStep obj.oid)
          (st.spatial, [])).2 }

/-- UEnhancedTickSystem::ProcessDeferredOperationsImpl: inside one locked
section, process all pending registrations, then all pending
unregistrations, then clear both queues. -/
def processDeferredOperationsImpl (st : SysState) : SysState :=
  let st1 := st.pendingRegistrations.foldl processRegistration st
  let st2 := st1.pendingUnregistrations.foldl processUnregistration st1
  { st2 with pendingRegistrations := [], pendingUnregistrations := [] }

/-- No spatial-grid structure references the given object id. -/
def gridAbsent (g : FSpatialEntityBatch) (oid : Nat) : Prop :=
  (∀ c ∈ g.gridCells, ∀ e ∈ c.2, e.objectId ≠ oid) ∧
  oid ∉ g.allSpatialEntities

/-- No type batch and no spatial-grid structure of the state references the
given object id. -/
def oidAbsent (st : SysState) (oid : Nat) : Prop :=
  (∀ kb ∈ st.typeBatches, ∀ e ∈ kb.2.tickEntities, e.objectId ≠ oid) ∧
  gridAbsent st.spatial oid

/-- The number of descriptors referencing the object id across a batch
list. -/
def descriptorCountL (l : List (Nat × FComponentTypeBatch)) (oid : Nat) : Nat :=
  (l.map
    (fun kb => (kb.2.tickEntities.filter (fun e => e.objectId == oid)).length)).sum

/-- The number of descriptors referencing the object id across all type
batches of the state. -/
def descriptorCount (st : SysState) (oid : Nat) : Nat :=
  descriptorCountL st.typeBatches oid

/-!
## Concrete fixtures used by witnesses and counterexamples
-/
def entAFx : FTickEntityData :=
  { objectId := 1, objectState := ObjState.live, hasTickFunction := true,
    position := ⟨0, 0, 0⟩, spatialBucketId := 0, priority := 100,
    bEnabled := true, denylisted := false }

def entBFx : FTickEntityData := { entAFx with objectId := 2, position := ⟨1, 0, 0⟩ }

def entDisabledFx : FTickEntityData :=
  { entAFx with objectId := 3, position := ⟨2, 0, 0⟩, bEnabled := false }

def batchFx : FComponentTypeBatch :=
  { typeName := "TestBatch", flags := noFlags, tickEntities := [entAFx, entBFx],
    hasBatchTickFunction := true, tickGroup := 0, averageTickTimeNs := 0,
    lastFrameTickCount := 0, bSortByCacheLocality := true }

def lowPrioBatchFx : FComponentTypeBatch :=
  { batchFx with flags := { noFlags with lowPrio := true } }

def batchC3Fx : FComponentTypeBatch :=
  { batchFx with tickEntities := [entAFx, entBFx, entDisabledFx] }

def lowPrioBatch7Fx : FComponentTypeBatch :=
  { lowPrioBatchFx with lastFrameTickCount := 7 }

def parallelLowBatchFx : FComponentTypeBatch :=
  { batchFx with
    tickEntities := [entAFx],
    flags := { noFlags with lowPrio := true, useParallel := true } }

def parallelBatchFx : FComponentTypeBatch :=
  { batchFx with flags := { noFlags with useParallel := true } }

def batchOneFx : FComponentTypeBatch :=
  { batchFx with tickEntities := [entAFx], lastFrameTickCount := 5 }

def batchTwoFx : FComponentTypeBatch :=
  { batchFx with tickEntities := [entAFx, entBFx], lastFrameTickCount := 0 }

def entDisabledOriginFx : FTickEntityData := { entAFx with objectId := 4, bEnabled := false }

def gridC4Fx : FSpatialEntityBatch :=
  { gridCellSize := 1,
    gridCells := [(calculateGridCell 1 ⟨0, 0, 0⟩, [entDisabledOriginFx])],
    allSpatialEntities := [4] }

def gridC4bFx : FSpatialEntityBatch :=
  { gridCellSize := 1,
    gridCells := [(calculateGridCell 1 ⟨0, 0, 0⟩, [entAFx])],
    allSpatialEntities := [1] }

def gridEmptyFx : FSpatialEntityBatch :=
  { gridCellSize := 2000, gridCells := [], allSpatialEntities := [] }

def objFx : ExternalObject :=
  { oid := 42, valid := true, className := "FooComponent", classKey := 7,
    tickGroup := 0, isActive := true, position := ⟨0, 0, 0⟩, denylisted := false }

def spatialFlagsFx : Flags := { noFlags with spatialAware := true }

def stEmptyFx : SysState :=
  { typeBatches := [], spatial := gridEmptyFx, pendingRegistrations := [],
    pendingUnregistrations := [] }

def stC7Fx : SysState :=
  { stEmptyFx with
    pendingRegistrations := [(objFx, spatialFlagsFx)],
    pendingUnregistrations := [objFx] }

def batchAvg1500Fx : FComponentTypeBatch :=
  { batchFx with
    averageTickTimeNs := 1500,
    tickEntities := List.replicate 20 entAFx }

/-- Rank of the HighPrio flag for the lexicographic reading of the
comparator: flagged batches rank 0 (first). -/
def keyHigh (b : FComponentTypeBatch) : Nat := if b.flags.highPrio then 0 else 1

/-- Rank of the LowPrio flag: flagged batches rank 1 (last). -/
def keyLow (b : FComponentTypeBatch) : Nat := if b.flags.lowPrio then 1 else 0

theorem pickNearest_snd_length (last cur : FTickEntityData) (l : List FTickEntityData) :
    ((pickNearest last cur l).2).length = l.length := by
  induction l generalizing cur with
  | nil => simp [pickNearest]
  | cons x xs ih =>
    simp only [pickNearest]
    split
    · simp [ih]
    · simp [ih]

theorem chainFrom_nil (last : FTickEntityData) : chainFrom last [] = [] := rfl

theorem chainFrom_cons (last x : FTickEntityData) (xs : List FTickEntityData) :
    chainFrom last (x :: xs) =
      (pickNearest last x xs).1 ::
        chainFrom (pickNearest last x xs).1 (pickNearest last x xs).2 := by
  show chainFromAux (xs.length + 1) last (x :: xs) = _
  unfold chainFrom
  rw [chainFromAux, pickNearest_snd_length]

theorem pickNearest_perm (last cur : FTickEntityData) (l : List FTickEntityData) :
    ((pickNearest last cur l).1 :: (pickNearest last cur l).2).Perm (cur :: l) := by
  induction l generalizing cur with
  | nil => simp [pickNearest]
  | cons x xs ih =>
    simp only [pickNearest]
    split
    · exact (List.Perm.swap cur (pickNearest last x xs).1
        (pickNearest last x xs).2).trans ((ih x).cons cur)
    · exact ((List.Perm.swap x (pickNearest last cur xs).1
        (pickNearest last cur xs).2)).trans (((ih cur).cons x).trans (List.Perm.swap cur x xs))

theorem pickNearest_min (last : FTickEntityData) (l : List FTickEntityData) :
    ∀ cur, ∀ y ∈ cur :: l,
      distSq last.position (pickNearest last cur l).1.position ≤ distSq last.position y.position := by
  induction l with
  | nil =>
    intro cur y hy
    rcases List.mem_cons.mp hy with hy | hy
    · subst hy; simp [pickNearest]
    · simp at hy
  | cons x xs ih =>
    intro cur y hy
    simp only [pickNearest]
    split
    · rename_i hlt
      rcases List.mem_cons.mp hy with hy | hy
      · subst hy
        exact le_trans (ih x x (List.mem_cons_self x xs)) (le_of_lt hlt)
      · exact ih x y hy
    · rename_i hge
      rcases List.mem_cons.mp hy with hy | hy
      · rw [hy]
        exact ih cur cur (List.mem_cons_self cur xs)
      · rcases List.mem_cons.mp hy with hy | hy
        · subst hy
          exact le_trans (ih cur cur (List.mem_cons_self cur xs)) (le_of_not_lt hge)
        · exact ih cur y (List.mem_cons_of_mem cur hy)

theorem pickNearest_of_min (last cur : FTickEntityData) (l : List FTickEntityData)
    (h : ∀ y ∈ l, distSq last.position cur.position ≤ distSq last.position y.position) :
    pickNearest last cur l = (cur, l) := by
  induction l with
  | nil => rfl
  | cons x xs ih =>
    have hx : ¬ distSq last.position x.position < distSq last.position cur.position :=
      not_lt.mpr (h x (List.mem_cons_self x xs))
    simp only [pickNearest, if_neg hx]
    rw [ih (fun y hy => h y (List.mem_cons_of_mem x hy))]

theorem chainFrom_perm (last : FTickEntityData) (l : List FTickEntityData) :
    (chainFrom last l).Perm l := by
  match l with
  | [] => simp [chainFrom_nil]
  | x :: xs =>
    rw [chainFrom_cons]
    have h1 := chainFrom_perm (pickNearest last x xs).1 (pickNearest last x xs).2
    exact (h1.cons (pickNearest last x xs).1).trans (pickNearest_perm last x xs)
termination_by l.length
decreasing_by simp [pickNearest_snd_length]

theorem chainFrom_chained (last : FTickEntityData) (l : List FTickEntityData) :
    IsChained last (chainFrom last l) := by
  match l with
  | [] => simp [chainFrom_nil, IsChained]
  | x :: xs =>
    rw [chainFrom_cons]
    refine ⟨?_, chainFrom_chained (pickNearest last x xs).1 (pickNearest last x xs).2⟩
    intro y hy
    rcases List.mem_cons.mp hy with hy | hy
    · subst hy
      exact le_refl _
    · have hmem : y ∈ x :: xs := by
        have hperm := chainFrom_perm (pickNearest last x xs).1 (pickNearest last x xs).2
        have hm2 : y ∈ (pickNearest last x xs).2 := hperm.mem_iff.mp hy
        exact (pickNearest_perm last x xs).mem_iff.mp (List.mem_cons_of_mem _ hm2)
      exact pickNearest_min last xs x y hmem
termination_by l.length
decreasing_by simp [pickNearest_snd_length]

theorem chainFrom_of_chained (l : List FTickEntityData) :
    ∀ last, IsChained last l → chainFrom last l = l := by
  induction l with
  | nil => intro last _; simp [chainFrom_nil]
  | cons x xs ih =>
    intro last h
    obtain ⟨hmin, hrest⟩ := h
    rw [chainFrom_cons]
    rw [pickNearest_of_min last x xs (fun y hy => hmin y (List.mem_cons_of_mem x hy))]
    simpa using ih x hrest

theorem chainFrom_length (last : FTickEntityData) (l : List FTickEntityData) :
    (chainFrom last l).length = l.length :=
  (chainFrom_perm last l).length_eq

/-- All fields other than the entity sequence are unchanged by SortForCacheLocality. -/
theorem sortForCacheLocality_fields (b : FComponentTypeBatch) :
    (sortForCacheLocality b).typeName = b.typeName ∧
    (sortForCacheLocality b).flags = b.flags ∧
    (sortForCacheLocality b).hasBatchTickFunction = b.hasBatchTickFunction ∧
    (sortForCacheLocality b).tickGroup = b.tickGroup ∧
    (sortForCacheLocality b).averageTickTimeNs = b.averageTickTimeNs ∧
    (sortForCacheLocality b).lastFrameTickCount = b.lastFrameTickCount ∧
    (sortForCacheLocality b).bSortByCacheLocality = b.bSortByCacheLocality := by
  unfold sortForCacheLocality
  split
  · exact ⟨rfl, rfl, rfl, rfl, rfl, rfl, rfl⟩
  · split
    · exact ⟨rfl, rfl, rfl, rfl, rfl, rfl, rfl⟩
    · split <;> exact ⟨rfl, rfl, rfl, rfl, rfl, rfl, rfl⟩

/-- The result of SortForCacheLocality in the non-trivial case. -/
theorem sortForCacheLocality_eq_of (b : FComponentTypeBatch) (v0 : FTickEntityData)
    (vrest : List FTickEntityData)
    (h1 : ¬ b.tickEntities.length < 2)
    (hf : b.tickEntities.filter entityActive = v0 :: vrest)
    (h2 : ¬ (v0 :: vrest).length < 2) :
    sortForCacheLocality b = { b with tickEntities := v0 :: chainFrom v0 vrest } := by
  unfold sortForCacheLocality
  rw [if_neg h1, hf, if_neg h2]

/-- The multiset of enabled-and-valid descriptors is preserved by SortForCacheLocality. -/
theorem sortForCacheLocality_filter_perm (b : FComponentTypeBatch) :
    ((sortForCacheLocality b).tickEntities.filter entityActive).Perm
      (b.tickEntities.filter entityActive) := by
  unfold sortForCacheLocality
  split
  · exact List.Perm.refl _
  · split
    · exact List.Perm.refl _
    · split
      · exact List.Perm.refl _
      · rename_i hf v0 vrest heq
        have hperm : (v0 :: chainFrom v0 vrest).Perm (v0 :: vrest) :=
          (chainFrom_perm v0 vrest).cons v0
        have hall : ∀ e ∈ v0 :: chainFrom v0 vrest, entityActive e = true := by
          intro e he
          have hm : e ∈ v0 :: vrest := hperm.mem_iff.mp he
          rw [← heq] at hm
          exact List.of_mem_filter hm
        show ((v0 :: chainFrom v0 vrest).filter entityActive).Perm _
        rw [List.filter_eq_self.mpr hall, heq]
        exact hperm

/-- SortForCacheLocality introduces no new descriptors. -/
theorem sortForCacheLocality_subset (b : FComponentTypeBatch) :
    ∀ e ∈ (sortForCacheLocality b).tickEntities, e ∈ b.tickEntities := by
  intro e he
  unfold sortForCacheLocality at he
  split at he
  · exact he
  · split at he
    · exact he
    · split at he
      · exact he
      · rename_i hf v0 vrest heq
        have hperm : (v0 :: chainFrom v0 vrest).Perm (v0 :: vrest) :=
          (chainFrom_perm v0 vrest).cons v0
        have hm : e ∈ v0 :: vrest := hperm.mem_iff.mp he
        rw [← heq] at hm
        exact List.mem_of_mem_filter hm

/-- Helper for idempotence: applying SortForCacheLocality twice gives the same
batch as applying it once. -/
theorem sortForCacheLocality_idem (b : FComponentTypeBatch) :
    sortForCacheLocality (sortForCacheLocality b) = sortForCacheLocality b := by
  by_cases h1 : b.tickEntities.length < 2
  · have hb : sortForCacheLocality b = b := by
      unfold sortForCacheLocality; rw [if_pos h1]
    rw [hb]
    exact hb
  · by_cases h2 : (b.tickEntities.filter entityActive).length < 2
    · have hb : sortForCacheLocality b = b := by
        unfold sortForCacheLocality; rw [if_neg h1, if_pos h2]
      rw [hb]
      exact hb
    · obtain ⟨v0, vrest, hf⟩ : ∃ v0 vrest, b.tickEntities.filter entityActive = v0 :: vrest := by
        cases hc : b.tickEntities.filter entityActive with
        | nil => rw [hc] at h2; simp at h2
        | cons v0 vrest => exact ⟨v0, vrest, rfl⟩
      rw [hf] at h2
      have hents : (sortForCacheLocality b).tickEntities = v0 :: chainFrom v0 vrest := by
        rw [sortForCacheLocality_eq_of b v0 vrest h1 hf h2]
      have hall : ∀ e ∈ v0 :: chainFrom v0 vrest, entityActive e = true := by
        intro e he
        have hm : e ∈ v0 :: vrest :=
          ((chainFrom_perm v0 vrest).cons v0).mem_iff.mp he
        rw [← hf] at hm
        exact List.of_mem_filter hm
      have hfs : (sortForCacheLocality b).tickEntities.filter entityActive =
          v0 :: chainFrom v0 vrest := by
        rw [hents]
        exact List.filter_eq_self.mpr hall
      have hlen2 : ¬ (sortForCacheLocality b).tickEntities.length < 2 := by
        rw [hents]
        simp only [List.length_cons, chainFrom_length]
        simp only [List.length_cons] at h2
        omega
      have hlen2f : ¬ (v0 :: chainFrom v0 vrest).length < 2 := by
        rw [← hents]
        exact hlen2
      have hchain : chainFrom v0 (chainFrom v0 vrest) = chainFrom v0 vrest :=
        chainFrom_of_chained _ v0 (chainFrom_chained v0 vrest)
      rw [sortForCacheLocality_eq_of (sortForCacheLocality b) v0 (chainFrom v0 vrest)
        hlen2 hfs hlen2f, hchain, sortForCacheLocality_eq_of b v0 vrest h1 hf h2]

theorem update_lastCount_self (b : FComponentTypeBatch)
    (h : b.lastFrameTickCount = 0) : { b with lastFrameTickCount := 0 } = b := by
  cases b
  simp only at h
  simp [h]

theorem tickBatch_lastCount_irrel (now elapsedNs : ℚ) (b : FComponentTypeBatch) :
    tickBatch now elapsedNs { b with lastFrameTickCount := 0 } =
      tickBatch now elapsedNs b := rfl

theorem preTick_flags (b : FComponentTypeBatch) : (preTick b).flags = b.flags := by
  unfold preTick
  split
  · exact (sortForCacheLocality_fields _).2.1
  · rfl

theorem preTick_hasFn (b : FComponentTypeBatch) :
    (preTick b).hasBatchTickFunction = b.hasBatchTickFunction := by
  unfold preTick
  split
  · exact (sortForCacheLocality_fields _).2.2.1
  · rfl

theorem preTick_bSort (b : FComponentTypeBatch) :
    (preTick b).bSortByCacheLocality = b.bSortByCacheLocality := by
  unfold preTick
  split
  · exact (sortForCacheLocality_fields _).2.2.2.2.2.2
  · rfl

theorem preTick_lastCount (b : FComponentTypeBatch) :
    (preTick b).lastFrameTickCount = 0 := by
  unfold preTick
  split
  · exact (sortForCacheLocality_fields _).2.2.2.2.2.1
  · rfl

theorem preTick_avg (b : FComponentTypeBatch) :
    (preTick b).averageTickTimeNs = b.averageTickTimeNs := by
  unfold preTick
  split
  · exact (sortForCacheLocality_fields _).2.2.2.2.1
  · rfl

theorem preTick_subset (b : FComponentTypeBatch) :
    ∀ e ∈ (preTick b).tickEntities, e ∈ b.tickEntities := by
  intro e he
  unfold preTick at he
  split at he
  · exact sortForCacheLocality_subset { b with lastFrameTickCount := 0 } e he
  · exact he

theorem preTick_idem (b : FComponentTypeBatch) : preTick (preTick b) = preTick b := by
  by_cases hs : b.bSortByCacheLocality
  · have h1 : preTick b = sortForCacheLocality { b with lastFrameTickCount := 0 } := by
      unfold preTick
      rw [if_pos hs]
    rw [h1]
    unfold preTick
    rw [if_pos (by rw [(sortForCacheLocality_fields _).2.2.2.2.2.2]; exact hs)]
    rw [update_lastCount_self _ (sortForCacheLocality_fields _).2.2.2.2.2.1]
    exact sortForCacheLocality_idem _
  · have h1 : preTick b = { b with lastFrameTickCount := 0 } := by
      unfold preTick
      rw [if_neg hs]
    rw [h1]
    unfold preTick
    rw [if_neg (by simpa using hs)]

theorem preTick_idem_update (b : FComponentTypeBatch) :
    preTick { preTick b with lastFrameTickCount := 0 } = preTick b := by
  rw [update_lastCount_self (preTick b) (preTick_lastCount b)]
  exact preTick_idem b

/-- Every invoked id of the sequential path is the id of an
enabled-and-valid member of the batch. -/
theorem tickBatch_invoked_subset (now elapsedNs : ℚ) (b : FComponentTypeBatch) :
    ∀ i ∈ (tickBatch now elapsedNs b).2,
      ∃ e ∈ b.tickEntities, e.objectId = i ∧ entityActive e = true := by
  intro i hi
  simp only [tickBatch, filterActive] at hi
  split at hi
  · simp at hi
  · split at hi
    · simp at hi
    · split at hi
      · simp at hi
      · simp only [List.mem_map] at hi
        obtain ⟨e, he, hei⟩ := hi
        exact ⟨e, preTick_subset b e (List.mem_of_mem_filter he), hei,
          List.of_mem_filter he⟩

theorem tickBatch_skip (now elapsedNs : ℚ) (b : FComponentTypeBatch)
    (h : (b.tickEntities.isEmpty || !b.hasBatchTickFunction) = true) :
    tickBatch now elapsedNs b = ({ b with lastFrameTickCount := 0 }, []) := by
  simp only [tickBatch]
  rw [if_pos h]

theorem tickBatch_gate (now elapsedNs : ℚ) (b : FComponentTypeBatch)
    (h : (b.tickEntities.isEmpty || !b.hasBatchTickFunction) = false)
    (hg : ((preTick b).flags.lowPrio && decide (now < 30)) = true) :
    tickBatch now elapsedNs b = (preTick b, []) := by
  simp only [tickBatch]
  rw [if_neg (by simp [h]), if_pos hg]

theorem tickBatch_run (now elapsedNs : ℚ) (b : FComponentTypeBatch)
    (h : (b.tickEntities.isEmpty || !b.hasBatchTickFunction) = false)
    (hg : ((preTick b).flags.lowPrio && decide (now < 30)) = false) :
    tickBatch now elapsedNs b =
      if (filterActive (preTick b).tickEntities).isEmpty then (preTick b, [])
      else
        ({ preTick b with
            averageTickTimeNs :=
              elapsedNs / ((filterActive (preTick b).tickEntities).length : ℚ),
            lastFrameTickCount := (filterActive (preTick b).tickEntities).length },
         (filterActive (preTick b).tickEntities).map (fun e => e.objectId)) := by
  simp only [tickBatch]
  rw [if_neg (by simp [h]), if_neg (by simp [hg])]

theorem tickBatchParallel_fallback (now elapsedNs : ℚ) (nt : Nat)
    (b : FComponentTypeBatch)
    (h : (b.tickEntities.isEmpty || !b.hasBatchTickFunction ||
      !b.canTickInParallel) = true) :
    tickBatchParallel now elapsedNs nt b = tickBatch now elapsedNs b := by
  simp only [tickBatchParallel]
  rw [if_pos h]
  exact tickBatch_lastCount_irrel now elapsedNs b

theorem tickBatchParallel_run (now elapsedNs : ℚ) (nt : Nat)
    (b : FComponentTypeBatch)
    (h : (b.tickEntities.isEmpty || !b.hasBatchTickFunction ||
      !b.canTickInParallel) = false) :
    tickBatchParallel now elapsedNs nt b =
      (if (filterActive (preTick b).tickEntities).isEmpty then (preTick b, [])
       else if (filterActive (preTick b).tickEntities).any
           (fun e => e.denylisted) then
         tickBatch now elapsedNs (preTick b)
       else
         ({ preTick b with
             lastFrameTickCount := (filterActive (preTick b).tickEntities).length,
             averageTickTimeNs :=
               elapsedNs / (((filterActive (preTick b).tickEntities).length : ℚ)) },
          shardInvocations (filterActive (preTick b).tickEntities) nt
            (entitiesPerThread (filterActive (preTick b).tickEntities).length nt))) := by
  simp only [tickBatchParallel]
  rw [if_neg (by simp [h])]

theorem filterActive_ne_of (l : List FTickEntityData)
    (h : (filterActive l).isEmpty = false) : l.isEmpty = false := by
  cases l with
  | nil => simp [filterActive] at h
  | cons x xs => rfl

theorem preTick_empty (b : FComponentTypeBatch) (h : b.tickEntities = []) :
    (preTick b).tickEntities = [] := by
  have hsub := preTick_subset b
  rw [h] at hsub
  rcases hc : (preTick b).tickEntities with _ | ⟨x, xs⟩
  · rfl
  · exfalso
    have : x ∈ (preTick b).tickEntities := by rw [hc]; exact List.mem_cons_self x xs
    simpa using hsub x this

/-- When the denylist check makes TickBatchParallel fall back to TickBatch on
the already-sorted batch, the result is the same as running TickBatch on the
original batch. -/
theorem tickBatch_of_preTick (now elapsedNs : ℚ) (b : FComponentTypeBatch)
    (hfn : b.hasBatchTickFunction = true)
    (hg : ((preTick b).flags.lowPrio && decide (now < 30)) = false)
    (hne : (filterActive (preTick b).tickEntities).isEmpty = false) :
    tickBatch now elapsedNs (preTick b) = tickBatch now elapsedNs b := by
  have hpt_ne : (preTick b).tickEntities.isEmpty = false := filterActive_ne_of _ hne
  have hb_ne : b.tickEntities.isEmpty = false := by
    rcases hb : b.tickEntities with _ | ⟨x, xs⟩
    · have := preTick_empty b hb
      rw [this] at hpt_ne
      simp at hpt_ne
    · rfl
  have h1 : ((preTick b).tickEntities.isEmpty ||
      !(preTick b).hasBatchTickFunction) = false := by
    simp [hpt_ne, preTick_hasFn, hfn]
  have h2 : (b.tickEntities.isEmpty || !b.hasBatchTickFunction) = false := by
    simp [hb_ne, hfn]
  have hg2 : ((preTick (preTick b)).flags.lowPrio && decide (now < 30)) = false := by
    rw [preTick_idem]
    exact hg
  rw [tickBatch_run now elapsedNs (preTick b) h1 hg2,
    tickBatch_run now elapsedNs b h2 hg, preTick_idem]

theorem shard_fold_eq (active : List FTickEntityData) (per : Nat)
    (hper : 1 ≤ per) :
    ∀ k, (List.range k).foldl (shardStep active per) [] =
      ((active.take (min (k * per) active.length)).filter
        (fun e => e.hasTickFunction)).map (fun e => e.objectId) := by
  intro k
  induction k with
  | zero => simp
  | succ k ih =>
    rw [List.range_succ, List.foldl_append, List.foldl_cons, List.foldl_nil, ih]
    unfold shardStep
    have hmul : (k + 1) * per = k * per + per := by ring
    by_cases hk : active.length ≤ k * per
    · have hcond : min (k * per + per) active.length ≤ k * per := by omega
      rw [if_pos hcond]
      have h1 : min (k * per) active.length = active.length := by omega
      have h2 : min ((k + 1) * per) active.length = active.length := by omega
      rw [h1, h2]
    · have hcond : ¬ min (k * per + per) active.length ≤ k * per := by omega
      rw [if_neg hcond]
      have h1 : min (k * per) active.length = k * per := by omega
      have h2 : min ((k + 1) * per) active.length =
          min (k * per + per) active.length := by omega
      rw [h1, h2]
      rw [← List.map_append, ← List.filter_append]
      have h3 : k * per + (min (k * per + per) active.length - k * per) =
          min (k * per + per) active.length := by omega
      conv_rhs => rw [← h3, List.take_add]

/-- The coverage bound for the shard partition: numThreads shards of size
EntitiesPerThread cover the whole active list. -/
theorem entitiesPerThread_cover (n nt : Nat) (hnt : 1 ≤ nt) :
    n ≤ nt * entitiesPerThread n nt := by
  have hceil : n ≤ nt * ((n + nt - 1) / nt) := by
    have hd := Nat.div_add_mod (n + nt - 1) nt
    have hm : (n + nt - 1) % nt < nt := Nat.mod_lt _ (by omega)
    generalize nt * ((n + nt - 1) / nt) = A at hd ⊢
    omega
  have hle : (n + nt - 1) / nt ≤ entitiesPerThread n nt := le_max_right 1 _
  exact le_trans hceil (Nat.mul_le_mul_left nt hle)

/-- With at least one worker and a per-entity callable on every active
entity, the shard fan-out invokes exactly the active entities, in order. -/
theorem shardInvocations_eq (active : List FTickEntityData) (nt : Nat)
    (hnt : 1 ≤ nt)
    (htf : ∀ e ∈ active, e.hasTickFunction = true) :
    shardInvocations active nt (entitiesPerThread active.length nt) =
      active.map (fun e => e.objectId) := by
  have hper : 1 ≤ entitiesPerThread active.length nt := le_max_left 1 _
  have hcov : active.length ≤ nt * entitiesPerThread active.length nt :=
    entitiesPerThread_cover active.length nt hnt
  unfold shardInvocations
  rw [shard_fold_eq active _ hper nt, min_eq_right hcov, List.take_length,
    List.filter_eq_self.mpr htf]

/-!
## Claim theorems
-/
/-- C1 counterexample: from a fresh system (FrameCounter 0 from the
constructor) the counter is incremented at the top of Tick before any batch
is processed, so over a 9-frame run a low-priority batch is not ticked on
the frames {0,3,6} claimed: in particular it is skipped on frame 0, where
the counter reads 1. -/
theorem claim1_counterexample :
    tickedFrames lowPrioBatchFx 9 ≠ [0, 3, 6] ∧
    orchestratorTicksBatch (frameCounterOnFrame 0) lowPrioBatchFx = false := by
  decide

/-- C1 (amended): the per-frame orchestrator ticks a low-priority batch
exactly on the frames whose (pre-incremented) frame counter is divisible by
3; every batch not flagged low-priority is ticked every frame; and since the
counter is incremented once at the start of each frame tick, a 9-frame run
from a fresh system ticks a low-priority batch exactly on frames {2,5,8}
(0-indexed), not {0,3,6}. -/
theorem claim1_lowPrio_throttle (b c : FComponentTypeBatch)
    (hb : b.flags.lowPrio = true) (hc : c.flags.lowPrio = false) :
    (∀ fc, orchestratorTicksBatch fc b = (fc % 3 == 0)) ∧
    (∀ fc, orchestratorTicksBatch fc c = true) ∧
    tickedFrames b 9 = [2, 5, 8] := by
  refine ⟨?_, ?_, ?_⟩
  · intro fc
    simp [orchestratorTicksBatch, hb]
  · intro fc
    simp [orchestratorTicksBatch, hc]
  · unfold tickedFrames
    rw [List.filter_congr (fun i _ => by
      simp [orchestratorTicksBatch, hb] :
        ∀ i ∈ List.range 9, orchestratorTicksBatch (frameCounterOnFrame i) b =
          (frameCounterOnFrame i % 3 == 0))]
    decide

/-- C1 witness: the throttle law instantiated at a concrete low-priority
batch and a concrete unflagged batch. -/
theorem claim1_witness :
    lowPrioBatchFx.flags.lowPrio = true ∧ batchFx.flags.lowPrio = false ∧
    ((∀ fc, orchestratorTicksBatch fc lowPrioBatchFx = (fc % 3 == 0)) ∧
     (∀ fc, orchestratorTicksBatch fc batchFx = true) ∧
     tickedFrames lowPrioBatchFx 9 = [2, 5, 8]) :=
  ⟨rfl, rfl, claim1_lowPrio_throttle lowPrioBatchFx batchFx rfl rfl⟩

/-- C3 counterexample: on a batch with two enabled-and-valid entities and a
disabled third one, SortForCacheLocality drops the disabled entity, so the
multiset of descriptors in TickEntities is not preserved. -/
theorem claim3_counterexample :
    entDisabledFx ∈ batchC3Fx.tickEntities ∧
    entDisabledFx ∉ (sortForCacheLocality batchC3Fx).tickEntities := by
  decide

/-- C3 (amended): SortForCacheLocality preserves the multiset of
enabled-and-valid descriptors and introduces no descriptor that was not in
the batch before; but when the sort actually reorders (at least two entities
and at least two of them enabled-and-valid), descriptors that are disabled
or externally invalid are dropped from the sequence rather than kept. -/
theorem claim3_sort_membership (b : FComponentTypeBatch) :
    ((sortForCacheLocality b).tickEntities.filter entityActive).Perm
      (b.tickEntities.filter entityActive) ∧
    (∀ e ∈ (sortForCacheLocality b).tickEntities, e ∈ b.tickEntities) :=
  ⟨sortForCacheLocality_filter_perm b, sortForCacheLocality_subset b⟩

/-- The first Optimizer rule: a batch with average duration above 1000ns and
more than 10 entities gains the UseParallel flag, and no later rule of the
pass clears it. -/
theorem analyzeBatch_useParallel (b : FComponentTypeBatch)
    (h : b.averageTickTimeNs > 1000 ∧ b.tickEntities.length > 10) :
    (analyzeBatch b).flags.useParallel = true := by
  obtain ⟨tn, fl, te, fn, tg, avg, lc, bs⟩ := b
  dsimp only at h
  simp only [analyzeBatch]
  rw [if_pos h]
  dsimp only
  by_cases h2 : te.length < 5
  · rw [if_pos h2]
    dsimp only
    by_cases h3 : avg < 100 ∧ fl.highPrio = false
    · rw [if_pos h3]
    · rw [if_neg h3]
  · rw [if_neg h2]
    dsimp only
    by_cases h3 : avg < 100 ∧ fl.highPrio = false
    · rw [if_pos h3]
    · rw [if_neg h3]

/-- The second Optimizer rule: a batch with fewer than 5 entities has
cache-locality sorting disabled, and no later rule of the pass re-enables
it. -/
theorem analyzeBatch_bSort (b : FComponentTypeBatch)
    (h : b.tickEntities.length < 5) :
    (analyzeBatch b).bSortByCacheLocality = false := by
  obtain ⟨tn, fl, te, fn, tg, avg, lc, bs⟩ := b
  dsimp only at h
  simp only [analyzeBatch]
  by_cases h1 : avg > 1000 ∧ te.length > 10
  · rw [if_pos h1]
    dsimp only
    rw [if_pos h]
    dsimp only
    by_cases h3 : avg < 100 ∧ fl.highPrio = false
    · rw [if_pos h3]
    · rw [if_neg h3]
  · rw [if_neg h1]
    dsimp only
    rw [if_pos h]
    dsimp only
    by_cases h3 : avg < 100 ∧ fl.highPrio = false
    · rw [if_pos h3]
    · rw [if_neg h3]

/-- C5: after one Optimizer analysis pass, a batch with rolling average
duration 1500ns and 20 entities is parallel-eligible (1500 > 1000 and
20 > 10), and a batch with 3 entities has cache-locality sorting disabled
(3 < 5). -/
theorem claim5_optimizer (b c : FComponentTypeBatch)
    (hb1 : b.averageTickTimeNs = 1500) (hb2 : b.tickEntities.length = 20)
    (hc : c.tickEntities.length = 3) :
    (analyzeBatch b).flags.useParallel = true ∧
    (analyzeBatch c).bSortByCacheLocality = false :=
  ⟨analyzeBatch_useParallel b ⟨by rw [hb1]; norm_num, by rw [hb2]; norm_num⟩,
   analyzeBatch_bSort c (by rw [hc]; norm_num)⟩

/-- C5 witness: the Optimizer scenario instantiated at a concrete batch with
average 1500ns and 20 entities and a concrete 3-entity batch. -/
theorem claim5_witness :
    batchAvg1500Fx.averageTickTimeNs = 1500 ∧
    batchAvg1500Fx.tickEntities.length = 20 ∧
    batchC3Fx.tickEntities.length = 3 ∧
    ((analyzeBatch batchAvg1500Fx).flags.useParallel = true ∧
     (analyzeBatch batchC3Fx).bSortByCacheLocality = false) :=
  ⟨rfl, by decide, by decide, claim5_optimizer batchAvg1500Fx batchC3Fx rfl (by decide) (by decide)⟩

/-- C9: SortForCacheLocality is idempotent under unchanged membership:
applied twice in succession with no change to the batch's entities between
the calls, the second sort returns the batch exactly as after the first
call, entity order included. -/
theorem claim9_sort_idempotent (b : FComponentTypeBatch) :
    sortForCacheLocality (sortForCacheLocality b) = sortForCacheLocality b :=
  sortForCacheLocality_idem b

/-- C10 counterexample: with the application clock at 10 s, a low-priority
batch entering the sequential TickBatch has its LastFrameTickCount written
to 0 at entry, so the active-count statistic does change (here from 7),
contradicting the claim that no statistics are updated. -/
theorem claim10_counterexample :
    (tickBatch 10 0 lowPrioBatch7Fx).1.lastFrameTickCount ≠
      lowPrioBatch7Fx.lastFrameTickCount := by
  decide

/-- C10 (amended): in the sequential tick path a batch flagged low-priority
is skipped whenever the application clock reads less than 30 seconds,
independently of the frame-counter throttle: no entity is invoked and the
rolling average is left unchanged; the last-frame active count, however, is
reset to 0 at entry (and the cache-locality sort, when enabled, still runs
before the skip). -/
theorem claim10_lowPrio_time_gate (b : FComponentTypeBatch) (now elapsedNs : ℚ)
    (hlow : b.flags.lowPrio = true) (ht : now < 30) :
    (tickBatch now elapsedNs b).2 = [] ∧
    (tickBatch now elapsedNs b).1.averageTickTimeNs = b.averageTickTimeNs ∧
    (tickBatch now elapsedNs b).1.lastFrameTickCount = 0 := by
  by_cases h : (b.tickEntities.isEmpty || !b.hasBatchTickFunction) = true
  · rw [tickBatch_skip now elapsedNs b h]
    exact ⟨rfl, rfl, rfl⟩
  · have h2 : (b.tickEntities.isEmpty || !b.hasBatchTickFunction) = false := by
      simpa using h
    have hg : ((preTick b).flags.lowPrio && decide (now < 30)) = true := by
      rw [preTick_flags, hlow]
      simp [ht]
    rw [tickBatch_gate now elapsedNs b h2 hg]
    exact ⟨rfl, preTick_avg b, preTick_lastCount b⟩

/-- The comparator of SortBatchesByPriority is the lexicographic strict
order on (HighPrio rank, LowPrio rank, descending entity count). -/
theorem batchBefore_iff (a b : FComponentTypeBatch) :
    batchBefore a b = true ↔
      keyHigh a < keyHigh b ∨ (keyHigh a = keyHigh b ∧
        (keyLow a < keyLow b ∨ (keyLow a = keyLow b ∧
          b.tickEntities.length < a.tickEntities.length))) := by
  unfold batchBefore keyHigh keyLow
  cases ha : a.flags.highPrio <;> cases hb : b.flags.highPrio <;>
    cases hal : a.flags.lowPrio <;> cases hbl : b.flags.lowPrio <;>
      simp [ha, hb, hal, hbl]

theorem batchBefore_asymm (a b : FComponentTypeBatch)
    (h : batchBefore a b = true) : batchBefore b a = false := by
  rw [Bool.eq_false_iff]
  intro h2
  rw [batchBefore_iff] at h h2
  omega

/-- Closure fact used for sortedness of the insertion: whatever must come
before a batch must also come before everything that batch precedes. -/
theorem batchBefore_neg_closure (a x y : FComponentTypeBatch)
    (hax : batchBefore a x = true) (hyx : batchBefore y x = false) :
    batchBefore y a = false := by
  rw [Bool.eq_false_iff]
  intro h2
  have hyx2 : ¬ batchBefore y x = true := by simp [hyx]
  rw [batchBefore_iff] at hax h2
  rw [batchBefore_iff] at hyx2
  omega

theorem insertBatch_perm (a : FComponentTypeBatch)
    (l : List FComponentTypeBatch) : (insertBatch a l).Perm (a :: l) := by
  induction l with
  | nil => exact List.Perm.refl _
  | cons x xs ih =>
    unfold insertBatch
    split
    · exact List.Perm.refl _
    · exact ((ih.cons x)).trans (List.Perm.swap a x xs)

theorem sortBatchesByPriority_perm (l : List FComponentTypeBatch) :
    (sortBatchesByPriority l).Perm l := by
  induction l with
  | nil => exact List.Perm.refl _
  | cons x xs ih =>
    exact (insertBatch_perm x (sortBatchesByPriority xs)).trans (ih.cons x)

theorem insertBatch_pairwise (a : FComponentTypeBatch)
    (l : List FComponentTypeBatch)
    (hl : l.Pairwise (fun u v => batchBefore v u = false)) :
    (insertBatch a l).Pairwise (fun u v => batchBefore v u = false) := by
  induction l with
  | nil => simp [insertBatch]
  | cons x xs ih =>
    obtain ⟨hx, hxs⟩ := List.pairwise_cons.mp hl
    unfold insertBatch
    split
    · rename_i hax
      refine List.pairwise_cons.mpr ⟨?_, hl⟩
      intro y hy
      rcases List.mem_cons.mp hy with hy | hy
      · rw [hy]
        exact batchBefore_asymm a x hax
      · exact batchBefore_neg_closure a x y hax (hx y hy)
    · rename_i hax
      refine List.pairwise_cons.mpr ⟨?_, ih hxs⟩
      intro y hy
      have hy2 : y ∈ a :: xs := (insertBatch_perm a xs).mem_iff.mp hy
      rcases List.mem_cons.mp hy2 with hy3 | hy3
      · rw [hy3]
        simpa using hax
      · exact hx y hy3

theorem sortBatchesByPriority_pairwise (l : List FComponentTypeBatch) :
    (sortBatchesByPriority l).Pairwise (fun u v => batchBefore v u = false) := by
  induction l with
  | nil => exact List.Pairwise.nil
  | cons x xs ih => exact insertBatch_pairwise x _ ih

/-- C6 counterexample: two batches with identical flags, where the first has
1 entity but a last-frame active count of 5 and the second has 2 entities
with a last-frame active count of 0: the sort puts the 2-entity batch first,
so ties are ordered by descending total entity count (TickEntities.Num()),
not by the count of entities ticked in the last frame. -/
theorem claim6_counterexample :
    batchOneFx.flags = batchTwoFx.flags ∧
    sortBatchesByPriority [batchOneFx, batchTwoFx] = [batchTwoFx, batchOneFx] ∧
    batchTwoFx.lastFrameTickCount < batchOneFx.lastFrameTickCount := by
  decide

/-- C6 (amended): the per-frame batch sort orders each phase's TypeBatches
by the source comparator: it returns a permutation of the input in which no
later batch must precede an earlier one; consequently high-priority-flagged
batches come before unflagged ones, among batches of equal HighPrio flag the
low-priority-flagged come last, and ties among batches with equal
HighPrio/LowPrio flags are broken by descending total entity count
(TickEntities.Num()), not by the last-frame ticked count. (The engine sort
is an engine-side comparator sort; no stability guarantee is made.) -/
theorem claim6_priority_sort (l : List FComponentTypeBatch) :
    (sortBatchesByPriority l).Perm l ∧
    (sortBatchesByPriority l).Pairwise (fun u v => batchBefore v u = false) ∧
    (sortBatchesByPriority l).Pairwise (fun u v =>
      (v.flags.highPrio = true → u.flags.highPrio = true) ∧
      (u.flags.highPrio = v.flags.highPrio → u.flags.lowPrio = true →
        v.flags.lowPrio = true) ∧
      (u.flags.highPrio = v.flags.highPrio → u.flags.lowPrio = v.flags.lowPrio →
        v.tickEntities.length ≤ u.tickEntities.length)) := by
  refine ⟨sortBatchesByPriority_perm l, sortBatchesByPriority_pairwise l, ?_⟩
  refine (sortBatchesByPriority_pairwise l).imp ?_
  intro u v h
  have h2 : ¬ (keyHigh v < keyHigh u ∨ (keyHigh v = keyHigh u ∧
      (keyLow v < keyLow u ∨ (keyLow v = keyLow u ∧
        u.tickEntities.length < v.tickEntities.length)))) := by
    rw [← batchBefore_iff]
    simp [h]
  refine ⟨?_, ?_, ?_⟩
  · intro hvh
    by_contra huh
    apply h2
    left
    unfold keyHigh
    rw [hvh, Bool.not_eq_true] at *
    rw [huh, hvh]
    norm_num
  · intro heq hul
    by_contra hvl
    apply h2
    right
    refine ⟨by unfold keyHigh; rw [heq], ?_⟩
    left
    unfold keyLow
    rw [Bool.not_eq_true] at hvl
    rw [hul, hvl]
    norm_num
  · intro heq1 heq2
    by_contra hlen
    apply h2
    right
    refine ⟨by unfold keyHigh; rw [heq1], Or.inr ⟨by unfold keyLow; rw [heq2], by omega⟩⟩

theorem foldl_append_eq_flatMap {α β : Type} (f : β → List α) (l : List β)
    (init : List α) :
    l.foldl (fun acc b => acc ++ f b) init = init ++ l.flatMap f := by
  induction l generalizing init with
  | nil => simp
  | cons x xs ih => simp [ih, List.append_assoc]

theorem getNearbyEntities_eq (g : FSpatialEntityBatch) (p : V3) (r : ℚ) :
    getNearbyEntities g p r =
      (scannedCells g.gridCellSize p r).flatMap (cellHits g p r) := by
  unfold getNearbyEntities
  rw [foldl_append_eq_flatMap]
  simp

/-- C6 witness: the priority sort applied to a concrete two-batch phase
list returns a permutation of it. -/
theorem claim6_witness :
    (sortBatchesByPriority [batchOneFx, batchTwoFx]).Perm
      [batchOneFx, batchTwoFx] :=
  (claim6_priority_sort [batchOneFx, batchTwoFx]).1

/-- C4 counterexample: a disabled entity sitting exactly at the query point
is within the radius and lies in the scanned center cell, yet
GetNearbyEntities does not return it, because the gather filters on
bEnabled. -/
theorem claim4_counterexample :
    (calculateGridCell 1 ⟨0, 0, 0⟩) ∈
      scannedCells gridC4Fx.gridCellSize ⟨0, 0, 0⟩ 1 ∧
    findCell gridC4Fx (calculateGridCell 1 ⟨0, 0, 0⟩) =
      some [entDisabledOriginFx] ∧
    withinRadius ⟨0, 0, 0⟩ entDisabledOriginFx.position 1 = true ∧
    entDisabledOriginFx ∉ getNearbyEntities gridC4Fx ⟨0, 0, 0⟩ 1 := by
  decide

/-- C4 (amended): every entity returned by GetNearbyEntities lies within the
true Euclidean radius of the query point; and every entity of a scanned
candidate cell that is enabled, holds a non-null object reference and lies
within the radius is returned — entities that are disabled or whose object
pointer is null are filtered out even when within the radius and inside a
scanned cell. -/
theorem claim4_getNearby (g : FSpatialEntityBatch) (p : V3) (r : ℚ) :
    (∀ e ∈ getNearbyEntities g p r, withinRadius p e.position r = true) ∧
    (∀ gid ∈ scannedCells g.gridCellSize p r, ∀ es, findCell g gid = some es →
      ∀ e ∈ es, e.bEnabled = true → e.objectState ≠ ObjState.null →
        withinRadius p e.position r = true → e ∈ getNearbyEntities g p r) := by
  constructor
  · intro e he
    rw [getNearbyEntities_eq, List.mem_flatMap] at he
    obtain ⟨gid, _, he⟩ := he
    unfold cellHits at he
    rcases hf : findCell g gid with _ | es
    · rw [hf] at he
      simp at he
    · rw [hf] at he
      have h2 := List.of_mem_filter he
      simp only [Bool.and_eq_true] at h2
      exact h2.2
  · intro gid hgid es hes e he hen hnn hwr
    rw [getNearbyEntities_eq, List.mem_flatMap]
    refine ⟨gid, hgid, ?_⟩
    unfold cellHits
    rw [hes]
    apply List.mem_filter.mpr
    have hb : (e.objectState == ObjState.null) = false := by
      simp [hnn]
    refine ⟨he, ?_⟩
    simp [hen, hwr, hb]

/-- C4 witness: the completeness direction applied at a concrete grid whose
center cell holds one enabled live entity at the query point. -/
theorem claim4_witness :
    entAFx ∈ getNearbyEntities gridC4bFx ⟨0, 0, 0⟩ 1 :=
  (claim4_getNearby gridC4bFx ⟨0, 0, 0⟩ 1).2 (calculateGridCell 1 ⟨0, 0, 0⟩)
    (by decide) [entAFx] (by decide) entAFx (by decide) (by decide) (by decide)
    (by decide)

/-- C2 counterexample: a batch flagged both low-priority and
parallel-eligible, holding one enabled live entity with a bound callable and
not on the denylist, at application clock 0: the parallel path invokes the
entity while the sequential tick's low-priority time gate invokes nothing,
so the invoked sets differ. -/
theorem claim2_counterexample :
    (1 : Nat) ∈ (tickBatchParallel 0 0 2 parallelLowBatchFx).2 ∧
    (1 : Nat) ∉ (tickBatch 0 0 parallelLowBatchFx).2 := by
  decide

/-- C2 (amended): with at least one worker thread, a per-entity callable on
every entity, and the sequential low-priority time gate not firing (the
batch is not low-priority, or the clock reads at least 30 s): when the batch
is not parallel-eligible TickBatchParallel falls back to TickBatch exactly,
and in every case the list of invoked entity ids of TickBatchParallel equals
that of TickBatch — in particular the invoked sets coincide. Without the
gate assumption the equivalence fails (see the counterexample). -/
theorem claim2_parallel_equiv (now elapsedNs : ℚ) (nt : Nat)
    (b : FComponentTypeBatch)
    (hnt : 1 ≤ nt)
    (htf : ∀ e ∈ b.tickEntities, e.hasTickFunction = true)
    (hgate : b.flags.lowPrio = false ∨ 30 ≤ now) :
    (b.canTickInParallel = false →
      tickBatchParallel now elapsedNs nt b = tickBatch now elapsedNs b) ∧
    (tickBatchParallel now elapsedNs nt b).2 = (tickBatch now elapsedNs b).2 := by
  have hgateB : ((preTick b).flags.lowPrio && decide (now < 30)) = false := by
    rw [preTick_flags]
    rcases hgate with h | h
    · simp [h]
    · simp [not_lt.mpr h]
  constructor
  · intro hpar
    exact tickBatchParallel_fallback now elapsedNs nt b (by simp [hpar])
  · by_cases h2 : (b.tickEntities.isEmpty || !b.hasBatchTickFunction) = true
    · have hg : (b.tickEntities.isEmpty || !b.hasBatchTickFunction ||
          !b.canTickInParallel) = true := by
        rcases Bool.or_eq_true_iff.mp h2 with h | h <;> simp [h]
      rw [tickBatchParallel_fallback now elapsedNs nt b hg]
    · have h2f : (b.tickEntities.isEmpty || !b.hasBatchTickFunction) = false := by
        simpa using h2
      obtain ⟨hem, hfn⟩ : b.tickEntities.isEmpty = false ∧
          b.hasBatchTickFunction = true := by
        constructor
        · cases hx : b.tickEntities.isEmpty
          · rfl
          · rw [hx] at h2f
            simp at h2f
        · cases hx : b.hasBatchTickFunction
          · rw [hx] at h2f
            simp at h2f
          · rfl
      by_cases hpar : b.canTickInParallel = true
      · have hg : (b.tickEntities.isEmpty || !b.hasBatchTickFunction ||
            !b.canTickInParallel) = false := by
          simp [hem, hfn, hpar]
        rw [tickBatchParallel_run now elapsedNs nt b hg,
          tickBatch_run now elapsedNs b h2f hgateB]
        by_cases he : (filterActive (preTick b).tickEntities).isEmpty = true
        · rw [if_pos he, if_pos he]
        · rw [if_neg he, if_neg he]
          by_cases hd : (filterActive (preTick b).tickEntities).any
              (fun e => e.denylisted) = true
          · rw [if_pos hd,
              tickBatch_of_preTick now elapsedNs b hfn hgateB (by simpa using he),
              tickBatch_run now elapsedNs b h2f hgateB, if_neg he]
          · rw [if_neg hd]
            show shardInvocations (filterActive (preTick b).tickEntities) nt
                (entitiesPerThread (filterActive (preTick b).tickEntities).length nt) =
              (filterActive (preTick b).tickEntities).map (fun e => e.objectId)
            apply shardInvocations_eq _ nt hnt
            intro e hee
            exact htf e (preTick_subset b e (List.mem_of_mem_filter hee))
      · have hg : (b.tickEntities.isEmpty || !b.hasBatchTickFunction ||
            !b.canTickInParallel) = true := by
          cases hx : b.canTickInParallel
          · simp [hx]
          · exact absurd hx hpar
        rw [tickBatchParallel_fallback now elapsedNs nt b hg]

/-- C2 witness: the equivalence instantiated at a concrete parallel-eligible
batch of two enabled live entities, clock 0, two worker threads. -/
theorem claim2_witness :
    (1 ≤ 2 ∧ (∀ e ∈ parallelBatchFx.tickEntities, e.hasTickFunction = true) ∧
      parallelBatchFx.flags.lowPrio = false) ∧
    ((parallelBatchFx.canTickInParallel = false →
        tickBatchParallel 0 0 2 parallelBatchFx = tickBatch 0 0 parallelBatchFx) ∧
      (tickBatchParallel 0 0 2 parallelBatchFx).2 =
        (tickBatch 0 0 parallelBatchFx).2) :=
  ⟨⟨by decide, by decide, by decide⟩,
   claim2_parallel_equiv 0 0 2 parallelBatchFx (by decide) (by decide)
     (Or.inl (by decide))⟩

/-- C10 witness: the time gate instantiated at a concrete low-priority batch
with the clock at 10 s. -/
theorem claim10_witness :
    lowPrioBatch7Fx.flags.lowPrio = true ∧ (10 : ℚ) < 30 ∧
    ((tickBatch 10 0 lowPrioBatch7Fx).2 = [] ∧
     (tickBatch 10 0 lowPrioBatch7Fx).1.averageTickTimeNs =
       lowPrioBatch7Fx.averageTickTimeNs ∧
     (tickBatch 10 0 lowPrioBatch7Fx).1.lastFrameTickCount = 0) :=
  ⟨rfl, by norm_num, claim10_lowPrio_time_gate lowPrioBatch7Fx 10 0 rfl (by norm_num)⟩

/-!
## Deferred-flush support lemmas (claims 7 and 8)
-/
theorem not_mem_filter_ne (l : List Nat) (oid : Nat) :
    oid ∉ l.filter (fun i => i != oid) := by
  intro h
  have := List.of_mem_filter h
  simp at this

theorem removeFromCell_subset (cells : List (Nat × List FTickEntityData))
    (gid oid : Nat) :
    ∀ c' ∈ removeFromCell cells gid oid, ∀ e ∈ c'.2,
      ∃ c ∈ cells, e ∈ c.2 := by
  induction cells with
  | nil => intro c' hc'; simp [removeFromCell] at hc'
  | cons c rest ih =>
    intro c' hc' e he
    unfold removeFromCell at hc'
    by_cases hcg : (c.1 == gid) = true
    · rw [if_pos hcg] at hc'
      by_cases hemp :
          (c.2.filter (fun e => e.objectId != oid)).isEmpty = true
      · rw [if_pos hemp] at hc'
        exact ⟨c', List.mem_cons_of_mem c hc', he⟩
      · rw [if_neg hemp] at hc'
        rcases List.mem_cons.mp hc' with h | h
        · subst h
          exact ⟨c, List.mem_cons_self c rest, List.mem_of_mem_filter he⟩
        · exact ⟨c', List.mem_cons_of_mem c h, he⟩
    · rw [if_neg hcg] at hc'
      rcases List.mem_cons.mp hc' with h | h
      · exact ⟨c, List.mem_cons_self c rest, h ▸ he⟩
      · obtain ⟨c0, hc0, he0⟩ := ih c' h e he
        exact ⟨c0, List.mem_cons_of_mem c hc0, he0⟩

theorem removeEntity_gridAbsent (g : FSpatialEntityBatch)
    (d : FTickEntityData) (oid : Nat) (h : gridAbsent g oid) :
    gridAbsent (removeEntity g d) oid := by
  unfold removeEntity
  split
  · exact h
  · refine ⟨?_, ?_⟩
    · intro c' hc' e he
      obtain ⟨c, hc, he2⟩ :=
        removeFromCell_subset g.gridCells d.spatialBucketId d.objectId
          c' hc' e he
      exact h.1 c hc e he2
    · intro hm
      exact h.2 (List.mem_of_mem_filter hm)

theorem insert_remove_cells_absent
    (cells : List (Nat × List FTickEntityData)) (gid oid : Nat)
    (dd : FTickEntityData)
    (habs : ∀ c ∈ cells, ∀ e ∈ c.2, e.objectId ≠ oid)
    (hdd : dd.objectId = oid) :
    ∀ c' ∈ removeFromCell (insertIntoCell cells gid dd) gid oid,
      ∀ e ∈ c'.2, e.objectId ≠ oid := by
  induction cells with
  | nil =>
    intro c' hc'
    simp [insertIntoCell, removeFromCell, hdd] at hc'
  | cons c rest ih =>
    intro c' hc' e he
    unfold insertIntoCell at hc'
    by_cases hcg : (c.1 == gid) = true
    · rw [if_pos hcg] at hc'
      unfold removeFromCell at hc'
      dsimp only at hc'
      rw [if_pos hcg] at hc'
      have hfil : (c.2 ++ [dd]).filter (fun e => e.objectId != oid) = c.2 := by
        rw [List.filter_append]
        have h1 : c.2.filter (fun e => e.objectId != oid) = c.2 :=
          List.filter_eq_self.mpr (fun x hx => by
            simp [habs c (List.mem_cons_self c rest) x hx])
        have h2 : [dd].filter (fun e => e.objectId != oid) = [] := by
          simp [hdd]
        rw [h1, h2, List.append_nil]
      rw [hfil] at hc'
      by_cases hemp : c.2.isEmpty = true
      · rw [if_pos hemp] at hc'
        exact habs c' (List.mem_cons_of_mem c hc') e he
      · rw [if_neg hemp] at hc'
        rcases List.mem_cons.mp hc' with h | h
        · subst h
          exact habs c (List.mem_cons_self c rest) e he
        · exact habs c' (List.mem_cons_of_mem c h) e he
    · rw [if_neg hcg] at hc'
      unfold removeFromCell at hc'
      rw [if_neg hcg] at hc'
      rcases List.mem_cons.mp hc' with h | h
      · exact habs c (List.mem_cons_self c rest) e (h ▸ he)
      · exact ih (fun x hx => habs x (List.mem_cons_of_mem c hx)) c' h e he

theorem add_remove_gridAbsent (g : FSpatialEntityBatch) (d : FTickEntityData)
    (oid : Nat) (h : gridAbsent g oid) (hd : d.objectId = oid)
    (hns : (d.objectState == ObjState.null) = false)
    (hbid : d.spatialBucketId = calculateGridCell g.gridCellSize d.position) :
    gridAbsent (removeEntity (addEntity g d) d) oid := by
  subst hd
  have hne : ¬((d.objectState == ObjState.null) = true) := by simp [hns]
  have ha : addEntity g d =
      { g with
        gridCells := insertIntoCell g.gridCells
          (calculateGridCell g.gridCellSize d.position)
          { d with
            spatialBucketId := calculateGridCell g.gridCellSize d.position },
        allSpatialEntities := g.allSpatialEntities ++ [d.objectId] } := by
    rw [addEntity, if_neg hne]
  have hr : removeEntity (addEntity g d) d =
      { addEntity g d with
        gridCells := removeFromCell (addEntity g d).gridCells
          d.spatialBucketId d.objectId,
        allSpatialEntities :=
          (addEntity g d).allSpatialEntities.filter
            (fun i => i != d.objectId) } := by
    rw [removeEntity, if_neg hne]
  rw [hr, ha]
  refine ⟨?_, ?_⟩
  · dsimp only
    rw [hbid]
    exact insert_remove_cells_absent g.gridCells
      (calculateGridCell g.gridCellSize d.position) d.objectId
      { d with
        spatialBucketId := calculateGridCell g.gridCellSize d.position }
      h.1 rfl
  · dsimp only
    exact not_mem_filter_ne (g.allSpatialEntities ++ [d.objectId]) d.objectId

theorem removeFirstFrom_of_absent (sp : FSpatialEntityBatch)
    (l : List FTickEntityData) (oid : Nat)
    (h : ∀ e ∈ l, e.objectId ≠ oid) :
    removeFirstFrom sp l oid = (sp, l) := by
  induction l with
  | nil => rfl
  | cons e es ih =>
    unfold removeFirstFrom
    rw [if_neg (show ¬((e.objectId == oid) = true) by
          simp [h e (List.mem_cons_self e es)]),
        ih (fun x hx => h x (List.mem_cons_of_mem e hx))]

theorem removeFirstFrom_append (sp : FSpatialEntityBatch)
    (pre : List FTickEntityData) (d : FTickEntityData) (oid : Nat)
    (hpre : ∀ e ∈ pre, e.objectId ≠ oid) (hd : d.objectId = oid) :
    removeFirstFrom sp (pre ++ [d]) oid = (removeEntity sp d, pre) := by
  induction pre with
  | nil =>
    simp only [List.nil_append]
    unfold removeFirstFrom
    rw [if_pos (show (d.objectId == oid) = true by simp [hd])]
  | cons e es ih =>
    simp only [List.cons_append]
    unfold removeFirstFrom
    rw [if_neg (show ¬((e.objectId == oid) = true) by
          simp [hpre e (List.mem_cons_self e es)]),
        ih (fun x hx => hpre x (List.mem_cons_of_mem e hx))]

theorem unregStep_absent (oid : Nat) (sp : FSpatialEntityBatch)
    (acc : List (Nat × FComponentTypeBatch)) (kb : Nat × FComponentTypeBatch)
    (h : ∀ e ∈ kb.2.tickEntities, e.objectId ≠ oid) :
    unregStep oid (sp, acc) kb = (sp, acc ++ [kb]) := by
  unfold unregStep
  rw [removeFirstFrom_of_absent sp kb.2.tickEntities oid h]

theorem unregStep_hit (oid : Nat) (sp : FSpatialEntityBatch)
    (acc : List (Nat × FComponentTypeBatch)) (k : Nat)
    (bk : FComponentTypeBatch) (pre : List FTickEntityData)
    (d : FTickEntityData)
    (hpre : ∀ e ∈ pre, e.objectId ≠ oid) (hd : d.objectId = oid)
    (hbk : bk.tickEntities = pre ++ [d]) :
    unregStep oid (sp, acc) (k, bk) =
      (removeEntity sp d, acc ++ [(k, { bk with tickEntities := pre })]) := by
  unfold unregStep
  dsimp only
  rw [hbk, removeFirstFrom_append sp pre d oid hpre hd]

theorem unregFold_absent (oid : Nat) (L : List (Nat × FComponentTypeBatch)) :
    (∀ kb ∈ L, ∀ e ∈ kb.2.tickEntities, e.objectId ≠ oid) →
    ∀ (sp : FSpatialEntityBatch) (acc : List (Nat × FComponentTypeBatch)),
      L.foldl (unregStep oid) (sp, acc) = (sp, acc ++ L) := by
  induction L with
  | nil => intro _ sp acc; simp
  | cons kb L ih =>
    intro h sp acc
    rw [List.foldl_cons,
        unregStep_absent oid sp acc kb (h kb (List.mem_cons_self kb L)),
        ih (fun x hx => h x (List.mem_cons_of_mem kb hx)) sp (acc ++ [kb])]
    simp

theorem unregFold_full (oid : Nat) (L1 L2 : List (Nat × FComponentTypeBatch))
    (k : Nat) (bk : FComponentTypeBatch) (pre : List FTickEntityData)
    (d : FTickEntityData) (sp : FSpatialEntityBatch)
    (h1 : ∀ kb ∈ L1, ∀ e ∈ kb.2.tickEntities, e.objectId ≠ oid)
    (h2 : ∀ kb ∈ L2, ∀ e ∈ kb.2.tickEntities, e.objectId ≠ oid)
    (hpre : ∀ e ∈ pre, e.objectId ≠ oid) (hd : d.objectId = oid)
    (hbk : bk.tickEntities = pre ++ [d]) :
    (L1 ++ (k, bk) :: L2).foldl (unregStep oid) (sp, []) =
      (removeEntity sp d,
       L1 ++ (k, { bk with tickEntities := pre }) :: L2) := by
  rw [List.foldl_append, unregFold_absent oid L1 h1 sp [],
      List.foldl_cons, unregStep_hit oid sp ([] ++ L1) k bk pre d hpre hd hbk,
      unregFold_absent oid L2 h2]
  simp

theorem lookupBatch_absent (l : List (Nat × FComponentTypeBatch))
    (k oid : Nat)
    (h : ∀ kb ∈ l, ∀ e ∈ kb.2.tickEntities, e.objectId ≠ oid) :
    ∀ e ∈ ((lookupBatch l k).getD defaultBatch).tickEntities,
      e.objectId ≠ oid := by
  intro e he
  unfold lookupBatch at he
  rcases hf : l.find? (fun c => c.1 == k) with _ | pair
  · rw [hf] at he
    simp [defaultBatch] at he
  · rw [hf] at he
    exact h pair (List.mem_of_find?_eq_some hf) e he

theorem regBaseBatch_entities (st : SysState) (obj : ExternalObject)
    (fl : Flags) :
    (regBaseBatch st obj fl).tickEntities =
      ((lookupBatch st.typeBatches obj.classKey).getD
        defaultBatch).tickEntities := by
  unfold regBaseBatch
  split
  · rfl
  · rfl

theorem setBatch_decomp (l : List (Nat × FComponentTypeBatch)) (k : Nat)
    (b : FComponentTypeBatch) :
    ∃ L1 L2, setBatch l k b = L1 ++ (k, b) :: L2 ∧
      (∀ kb ∈ L1, kb ∈ l ∧ (kb.1 == k) = false) ∧ (∀ kb ∈ L2, kb ∈ l) := by
  induction l with
  | nil => exact ⟨[], [], rfl, by simp, by simp⟩
  | cons c rest ih =>
    cases hc : (c.1 == k) with
    | true =>
      refine ⟨[], rest, ?_, by simp, fun kb hkb => List.mem_cons_of_mem c hkb⟩
      unfold setBatch
      rw [if_pos hc]
      rfl
    | false =>
      obtain ⟨L1, L2, heq, h1, h2⟩ := ih
      refine ⟨c :: L1, L2, ?_, ?_,
        fun kb hkb => List.mem_cons_of_mem c (h2 kb hkb)⟩
      · unfold setBatch
        rw [if_neg (by simp [hc]), heq]
        rfl
      · intro kb hkb
        rcases List.mem_cons.mp hkb with h | h
        · exact ⟨h ▸ List.mem_cons_self c rest, h ▸ hc⟩
        · obtain ⟨hm, hk⟩ := h1 kb h
          exact ⟨List.mem_cons_of_mem c hm, hk⟩

theorem processRegistration_pendings (st : SysState)
    (p : ExternalObject × Flags) :
    (processRegistration st p).pendingRegistrations =
      st.pendingRegistrations ∧
    (processRegistration st p).pendingUnregistrations =
      st.pendingUnregistrations := by
  unfold processRegistration
  split
  · exact ⟨rfl, rfl⟩
  · exact ⟨rfl, rfl⟩

theorem processDeferredOperationsImpl_single (st : SysState)
    (obj : ExternalObject) (fl : Flags)
    (hreg : st.pendingRegistrations = [(obj, fl)])
    (hunreg : st.pendingUnregistrations = [obj]) :
    processDeferredOperationsImpl st =
      { processUnregistration (processRegistration st (obj, fl)) obj with
        pendingRegistrations := [], pendingUnregistrations := [] } := by
  have h1 : st.pendingRegistrations.foldl processRegistration st
      = processRegistration st (obj, fl) := by rw [hreg]; rfl
  have hp1 : (processRegistration st (obj, fl)).pendingUnregistrations
      = [obj] := by
    rw [(processRegistration_pendings st (obj, fl)).2, hunreg]
  simp only [processDeferredOperationsImpl]
  rw [h1, hp1]
  rfl

/-- C7 (spec section 4.6 / section 8): when a component is registered and
unregistered within the same deferred-operation flush, and the object was not
referenced anywhere beforehand, the flushed state again references it in no
type batch and no spatial structure, and no subsequent batch tick of the
flushed state can invoke it. -/
theorem claim7_register_unregister (st : SysState) (obj : ExternalObject)
    (fl : Flags) (habs : oidAbsent st obj.oid)
    (hreg : st.pendingRegistrations = [(obj, fl)])
    (hunreg : st.pendingUnregistrations = [obj]) :
    oidAbsent (processDeferredOperationsImpl st) obj.oid ∧
    ∀ kb ∈ (processDeferredOperationsImpl st).typeBatches,
      ∀ now elapsedNs : ℚ, obj.oid ∉ (tickBatch now elapsedNs kb.2).2 := by
  have hflush := processDeferredOperationsImpl_single st obj fl hreg hunreg
  suffices habs2 : oidAbsent (processDeferredOperationsImpl st) obj.oid by
    refine ⟨habs2, ?_⟩
    intro kb hkb now elapsedNs hmem
    obtain ⟨e, he, heq, _⟩ :=
      tickBatch_invoked_subset now elapsedNs kb.2 obj.oid hmem
    exact habs2.1 kb hkb e he heq
  rw [hflush]
  cases hv : obj.valid with
  | false =>
    have hvf : ((obj, fl).1.valid = false) := hv
    have hr0 : processRegistration st (obj, fl) = st := by
      unfold processRegistration
      rw [if_pos hvf]
    have hu0 : processUnregistration st obj = st := by
      unfold processUnregistration
      rw [if_pos hv]
    rw [hr0, hu0]
    exact ⟨fun kb hkb => habs.1 kb hkb, habs.2⟩
  | true =>
    have hvne : ¬((obj, fl).1.valid = false) := by simp [hv]
    have hvne2 : ¬(obj.valid = false) := by simp [hv]
    have hreg1 : processRegistration st (obj, fl) =
        { st with
          typeBatches := setBatch st.typeBatches obj.classKey
            { regBaseBatch st obj fl with
              tickEntities := (regBaseBatch st obj fl).tickEntities ++
                [mkDescriptor st.spatial.gridCellSize obj] },
          spatial := if fl.spatialAware then
              addEntity st.spatial (mkDescriptor st.spatial.gridCellSize obj)
            else st.spatial } := by
      unfold processRegistration
      rw [if_neg hvne]
    obtain ⟨L1, L2, hset, hL1, hL2⟩ :=
      setBatch_decomp st.typeBatches obj.classKey
        { regBaseBatch st obj fl with
          tickEntities := (regBaseBatch st obj fl).tickEntities ++
            [mkDescriptor st.spatial.gridCellSize obj] }
    have hL1abs : ∀ kb ∈ L1, ∀ e ∈ kb.2.tickEntities,
        e.objectId ≠ obj.oid :=
      fun kb hkb => habs.1 kb (hL1 kb hkb).1
    have hL2abs : ∀ kb ∈ L2, ∀ e ∈ kb.2.tickEntities,
        e.objectId ≠ obj.oid :=
      fun kb hkb => habs.1 kb (hL2 kb hkb)
    have hpreabs : ∀ e ∈ (regBaseBatch st obj fl).tickEntities,
        e.objectId ≠ obj.oid := by
      rw [regBaseBatch_entities]
      exact lookupBatch_absent st.typeBatches obj.classKey obj.oid habs.1
    have hTB : (processRegistration st (obj, fl)).typeBatches =
        L1 ++ (obj.classKey,
          { regBaseBatch st obj fl with
            tickEntities := (regBaseBatch st obj fl).tickEntities ++
              [mkDescriptor st.spatial.gridCellSize obj] }) :: L2 := by
      rw [hreg1]
      exact hset
    have hSP : (processRegistration st (obj, fl)).spatial =
        (if fl.spatialAware then
           addEntity st.spatial (mkDescriptor st.spatial.gridCellSize obj)
         else st.spatial) := by
      rw [hreg1]
    have hu1 : processUnregistration (processRegistration st (obj, fl)) obj =
        { processRegistration st (obj, fl) with
          spatial := removeEntity
            (if fl.spatialAware then
               addEntity st.spatial (mkDescriptor st.spatial.gridCellSize obj)
             else st.spatial)
            (mkDescriptor st.spatial.gridCellSize obj),
          typeBatches :=
            L1 ++ (obj.classKey, regBaseBatch st obj fl) :: L2 } := by
      unfold processUnregistration
      rw [if_neg hvne2, hTB, hSP,
        unregFold_full obj.oid L1 L2 obj.classKey
          { regBaseBatch st obj fl with
            tickEntities := (regBaseBatch st obj fl).tickEntities ++
              [mkDescriptor st.spatial.gridCellSize obj] }
          (regBaseBatch st obj fl).tickEntities
          (mkDescriptor st.spatial.gridCellSize obj)
          (if fl.spatialAware then
             addEntity st.spatial (mkDescriptor st.spatial.gridCellSize obj)
           else st.spatial)
          hL1abs hL2abs hpreabs rfl rfl]
    refine ⟨?_, ?_⟩
    · intro kb hkb e he
      have hkb2 : kb ∈ L1 ++ (obj.classKey, regBaseBatch st obj fl) :: L2 := by
        have : kb ∈ (processUnregistration
            (processRegistration st (obj, fl)) obj).typeBatches := hkb
        rw [hu1] at this
        exact this
      rcases List.mem_append.mp hkb2 with h | h
      · exact hL1abs kb h e he
      · rcases List.mem_cons.mp h with h | h
        · exact hpreabs e (by rw [h] at he; exact he)
        · exact hL2abs kb h e he
    · show gridAbsent (processUnregistration
        (processRegistration st (obj, fl)) obj).spatial obj.oid
      rw [hu1]
      show gridAbsent (removeEntity
        (if fl.spatialAware then
           addEntity st.spatial (mkDescriptor st.spatial.gridCellSize obj)
         else st.spatial)
        (mkDescriptor st.spatial.gridCellSize obj)) obj.oid
      by_cases hsa : fl.spatialAware = true
      · rw [if_pos hsa]
        exact add_remove_gridAbsent st.spatial
          (mkDescriptor st.spatial.gridCellSize obj) obj.oid habs.2
          rfl rfl rfl
      · rw [if_neg hsa]
        exact removeEntity_gridAbsent st.spatial
          (mkDescriptor st.spatial.gridCellSize obj) obj.oid habs.2

/-- C7 witness: registering and unregistering the concrete spatially-aware
component with object id 42 in one flush of the initially empty system. -/
theorem claim7_witness :
    (oidAbsent stC7Fx objFx.oid ∧
     stC7Fx.pendingRegistrations = [(objFx, spatialFlagsFx)] ∧
     stC7Fx.pendingUnregistrations = [objFx]) ∧
    (oidAbsent (processDeferredOperationsImpl stC7Fx) objFx.oid ∧
     ∀ kb ∈ (processDeferredOperationsImpl stC7Fx).typeBatches,
       ∀ now elapsedNs : ℚ, objFx.oid ∉ (tickBatch now elapsedNs kb.2).2) := by
  have habs : oidAbsent stC7Fx objFx.oid := by
    refine ⟨?_, ?_, ?_⟩ <;> simp [stC7Fx, stEmptyFx, gridEmptyFx]
  exact ⟨⟨habs, rfl, rfl⟩,
    claim7_register_unregister stC7Fx objFx spatialFlagsFx habs rfl rfl⟩

theorem setBatch_append (P Q : List (Nat × FComponentTypeBatch)) (k : Nat)
    (b b' : FComponentTypeBatch) (h : ∀ kb ∈ P, (kb.1 == k) = false) :
    setBatch (P ++ (k, b) :: Q) k b' = P ++ (k, b') :: Q := by
  induction P with
  | nil =>
    simp only [List.nil_append]
    unfold setBatch
    rw [if_pos (by simp)]
  | cons c P ih =>
    simp only [List.cons_append]
    unfold setBatch
    rw [if_neg (by simp [h c (List.mem_cons_self c P)]),
        ih (fun x hx => h x (List.mem_cons_of_mem c hx))]

theorem lookupBatch_append (P Q : List (Nat × FComponentTypeBatch)) (k : Nat)
    (b : FComponentTypeBatch) (h : ∀ kb ∈ P, (kb.1 == k) = false) :
    lookupBatch (P ++ (k, b) :: Q) k = some b := by
  induction P with
  | nil =>
    simp only [List.nil_append]
    unfold lookupBatch
    rw [List.find?_cons_of_pos _ (by simp)]
    rfl
  | cons c P ih =>
    simp only [List.cons_append]
    unfold lookupBatch
    rw [List.find?_cons_of_neg _ (by simp [h c (List.mem_cons_self c P)])]
    exact ih (fun x hx => h x (List.mem_cons_of_mem c hx))

theorem descriptorCountL_append (P Q : List (Nat × FComponentTypeBatch))
    (oid : Nat) :
    descriptorCountL (P ++ Q) oid =
      descriptorCountL P oid + descriptorCountL Q oid := by
  unfold descriptorCountL
  rw [List.map_append, List.sum_append]

theorem descriptorCountL_cons (kb : Nat × FComponentTypeBatch)
    (L : List (Nat × FComponentTypeBatch)) (oid : Nat) :
    descriptorCountL (kb :: L) oid =
      (kb.2.tickEntities.filter (fun e => e.objectId == oid)).length +
        descriptorCountL L oid := by
  unfold descriptorCountL
  rw [List.map_cons, List.sum_cons]

theorem descriptorCountL_absent (P : List (Nat × FComponentTypeBatch))
    (oid : Nat)
    (h : ∀ kb ∈ P, ∀ e ∈ kb.2.tickEntities, e.objectId ≠ oid) :
    descriptorCountL P oid = 0 := by
  induction P with
  | nil => rfl
  | cons kb L ih =>
    rw [descriptorCountL_cons,
        ih (fun x hx => h x (List.mem_cons_of_mem kb hx))]
    have hnil : kb.2.tickEntities.filter (fun e => e.objectId == oid) = [] :=
      List.filter_eq_nil_iff.mpr
        (fun e he => by simp [h kb (List.mem_cons_self kb L) e he])
    rw [hnil]
    rfl

theorem registerComponent_valid (st : SysState) (obj : ExternalObject)
    (fl : Flags) (hv : obj.valid = true) :
    registerComponent st obj fl =
      { st with pendingRegistrations := st.pendingRegistrations ++
          [(obj, if obj.denylisted && fl.useParallel then
              { fl with useParallel := false } else fl)] } := by
  unfold registerComponent
  rw [if_neg (by simp [hv])]

theorem processDeferredOperationsImpl_double (st : SysState)
    (obj : ExternalObject) (fl : Flags)
    (hreg : st.pendingRegistrations = [(obj, fl), (obj, fl)])
    (hunreg : st.pendingUnregistrations = []) :
    processDeferredOperationsImpl st =
      { processRegistration (processRegistration st (obj, fl)) (obj, fl) with
        pendingRegistrations := [], pendingUnregistrations := [] } := by
  have h1 : st.pendingRegistrations.foldl processRegistration st
      = processRegistration (processRegistration st (obj, fl)) (obj, fl) := by
    rw [hreg]
    rfl
  have hp1 : (processRegistration (processRegistration st (obj, fl))
      (obj, fl)).pendingUnregistrations = [] := by
    rw [(processRegistration_pendings _ _).2,
        (processRegistration_pendings _ _).2, hunreg]
  simp only [processDeferredOperationsImpl]
  rw [h1, hp1]
  rfl

theorem doubleRegistration_count (st : SysState) (obj : ExternalObject)
    (fl2 : Flags) (hv : obj.valid = true)
    (habs : ∀ kb ∈ st.typeBatches, ∀ e ∈ kb.2.tickEntities,
      e.objectId ≠ obj.oid)
    (hreg : st.pendingRegistrations = [(obj, fl2), (obj, fl2)])
    (hunreg : st.pendingUnregistrations = []) :
    descriptorCount (processDeferredOperationsImpl st) obj.oid = 2 := by
  have hflush := processDeferredOperationsImpl_double st obj fl2 hreg hunreg
  have hvne : ¬((obj, fl2).1.valid = false) := by simp [hv]
  have hA : processRegistration st (obj, fl2) =
      { st with
        typeBatches := setBatch st.typeBatches obj.classKey
          { regBaseBatch st obj fl2 with
            tickEntities := (regBaseBatch st obj fl2).tickEntities ++
              [mkDescriptor st.spatial.gridCellSize obj] },
        spatial := if fl2.spatialAware then
            addEntity st.spatial (mkDescriptor st.spatial.gridCellSize obj)
          else st.spatial } := by
    unfold processRegistration
    rw [if_neg hvne]
  obtain ⟨L1, L2, hset, hL1, hL2⟩ :=
    setBatch_decomp st.typeBatches obj.classKey
      { regBaseBatch st obj fl2 with
        tickEntities := (regBaseBatch st obj fl2).tickEntities ++
          [mkDescriptor st.spatial.gridCellSize obj] }
  have hkeys : ∀ kb ∈ L1, (kb.1 == obj.classKey) = false :=
    fun kb hkb => (hL1 kb hkb).2
  have hATB : (processRegistration st (obj, fl2)).typeBatches =
      L1 ++ (obj.classKey,
        { regBaseBatch st obj fl2 with
          tickEntities := (regBaseBatch st obj fl2).tickEntities ++
            [mkDescriptor st.spatial.gridCellSize obj] }) :: L2 := by
    rw [hA]
    exact hset
  have hlookup : lookupBatch (processRegistration st (obj, fl2)).typeBatches
      obj.classKey = some
      { regBaseBatch st obj fl2 with
        tickEntities := (regBaseBatch st obj fl2).tickEntities ++
          [mkDescriptor st.spatial.gridCellSize obj] } := by
    rw [hATB]
    exact lookupBatch_append L1 L2 obj.classKey _ hkeys
  have hbase2te :
      (regBaseBatch (processRegistration st (obj, fl2)) obj fl2).tickEntities =
      (regBaseBatch st obj fl2).tickEntities ++
        [mkDescriptor st.spatial.gridCellSize obj] := by
    rw [regBaseBatch_entities, hlookup]
    rfl
  have hB : processRegistration (processRegistration st (obj, fl2))
      (obj, fl2) =
      { processRegistration st (obj, fl2) with
        typeBatches := setBatch
          (processRegistration st (obj, fl2)).typeBatches obj.classKey
          { regBaseBatch (processRegistration st (obj, fl2)) obj fl2 with
            tickEntities :=
              (regBaseBatch (processRegistration st (obj, fl2))
                obj fl2).tickEntities ++
              [mkDescriptor
                (processRegistration st (obj, fl2)).spatial.gridCellSize obj] },
        spatial := if fl2.spatialAware then
            addEntity (processRegistration st (obj, fl2)).spatial
              (mkDescriptor
                (processRegistration st (obj, fl2)).spatial.gridCellSize obj)
          else (processRegistration st (obj, fl2)).spatial } := by
    unfold processRegistration
    rw [if_neg hvne]
  have hBTB : (processRegistration (processRegistration st (obj, fl2))
      (obj, fl2)).typeBatches =
      L1 ++ (obj.classKey,
        { regBaseBatch (processRegistration st (obj, fl2)) obj fl2 with
          tickEntities :=
            (regBaseBatch (processRegistration st (obj, fl2))
              obj fl2).tickEntities ++
            [mkDescriptor
              (processRegistration st (obj, fl2)).spatial.gridCellSize obj] })
        :: L2 := by
    rw [hB]
    dsimp only
    rw [hATB]
    exact setBatch_append L1 L2 obj.classKey _ _ hkeys
  have hpre0abs : ∀ e ∈ (regBaseBatch st obj fl2).tickEntities,
      e.objectId ≠ obj.oid := by
    rw [regBaseBatch_entities]
    exact lookupBatch_absent st.typeBatches obj.classKey obj.oid habs
  have hL1abs : descriptorCountL L1 obj.oid = 0 :=
    descriptorCountL_absent L1 obj.oid
      (fun kb hkb => habs kb (hL1 kb hkb).1)
  have hL2abs : descriptorCountL L2 obj.oid = 0 :=
    descriptorCountL_absent L2 obj.oid (fun kb hkb => habs kb (hL2 kb hkb))
  have h0 : (regBaseBatch st obj fl2).tickEntities.filter
      (fun e => e.objectId == obj.oid) = [] :=
    List.filter_eq_nil_iff.mpr (fun e he => by simp [hpre0abs e he])
  rw [hflush]
  unfold descriptorCount
  dsimp only
  rw [hBTB, descriptorCountL_append, descriptorCountL_cons, hL1abs, hL2abs]
  dsimp only
  rw [hbase2te, List.filter_append, List.filter_append, h0]
  simp [mkDescriptor]

/-- C8 (spec section 4.6 / section 8): RegisterComponent does not
deduplicate: registering the same valid component twice queues two pending
registrations, and the flush then stores two descriptors for the object. -/
theorem claim8_duplicate_registration (st : SysState) (obj : ExternalObject)
    (fl : Flags) (hv : obj.valid = true)
    (habs : ∀ kb ∈ st.typeBatches, ∀ e ∈ kb.2.tickEntities,
      e.objectId ≠ obj.oid)
    (hreg : st.pendingRegistrations = [])
    (hunreg : st.pendingUnregistrations = []) :
    (registerComponent (registerComponent st obj fl) obj
        fl).pendingRegistrations.length = 2 ∧
    descriptorCount (processDeferredOperationsImpl
      (registerComponent (registerComponent st obj fl) obj fl)) obj.oid
      = 2 := by
  have hrc := registerComponent_valid st obj fl hv
  have hrc2 := registerComponent_valid (registerComponent st obj fl) obj fl hv
  have hpp : (registerComponent (registerComponent st obj fl) obj
      fl).pendingRegistrations =
      [(obj, if obj.denylisted && fl.useParallel then
          { fl with useParallel := false } else fl),
       (obj, if obj.denylisted && fl.useParallel then
          { fl with useParallel := false } else fl)] := by
    rw [hrc2, hrc]
    dsimp only
    rw [hreg]
    rfl
  have hpu : (registerComponent (registerComponent st obj fl) obj
      fl).pendingUnregistrations = [] := by
    rw [hrc2, hrc]
    dsimp only
    exact hunreg
  have hTB0 : (registerComponent (registerComponent st obj fl) obj
      fl).typeBatches = st.typeBatches := by
    rw [hrc2, hrc]
  refine ⟨by rw [hpp]; rfl, ?_⟩
  exact doubleRegistration_count
    (registerComponent (registerComponent st obj fl) obj fl) obj
    (if obj.denylisted && fl.useParallel then
      { fl with useParallel := false } else fl) hv
    (fun kb hkb => habs kb (hTB0 ▸ hkb)) hpp hpu

/-- C8 witness: registering the concrete component with object id 42 twice
into the empty system and flushing. -/
theorem claim8_witness :
    (objFx.valid = true ∧
     (∀ kb ∈ stEmptyFx.typeBatches, ∀ e ∈ kb.2.tickEntities,
        e.objectId ≠ objFx.oid) ∧
     stEmptyFx.pendingRegistrations = [] ∧
     stEmptyFx.pendingUnregistrations = []) ∧
    ((registerComponent (registerComponent stEmptyFx objFx noFlags) objFx
        noFlags).pendingRegistrations.length = 2 ∧
     descriptorCount (processDeferredOperationsImpl
       (registerComponent (registerComponent stEmptyFx objFx noFlags) objFx
         noFlags)) objFx.oid = 2) := by
  have habs : ∀ kb ∈ stEmptyFx.typeBatches, ∀ e ∈ kb.2.tickEntities,
      e.objectId ≠ objFx.oid := by
    simp [stEmptyFx]
  exact ⟨⟨rfl, habs, rfl, rfl⟩,
    claim8_duplicate_registration stEmptyFx objFx noFlags rfl habs rfl rfl⟩

end EnhancedTick
